import Mathlib

/-!
# balrogT: the command-line driver `main` (src/main.cpp)

A shallow embedding of `main`: option checks, cache and MMseqs2 index
preparation, the per-contig gene-finding loop and the GFF3 writer.

Conventions of the embedding.
* A C++ `std::string` is a Lean `String`, one `Char` per C++ `char`.
* A C++ `int` is an `Int`; the two additions of the writer are reduced to the
  32-bit two's-complement range by `wrapInt32`.
* `std::vector<T>` is `List T`; `v[j]` is `v[j]?`, and an access out of range
  ends the run with `Exit.outOfRange`.
* Everything `main` calls but does not define (cxxopts, `std::system`, the file
  system, `FastaReader::read_fasta`, `GeneFinder::find_genes`) is a field of
  `World`.
* Effects are recorded, in program order, in a trace of `Event`s.
-/

namespace Balrog

/-! ## Strings and numbers -/

/-- Position of the first `c` in `s`, as `std::string::find(char)`; `none` is `npos`. -/
def strFind : List Char → Char → Option Nat
  | [], _ => none
  | x :: xs, c => if x = c then some 0 else (strFind xs c).map (· + 1)

/-- The call `s.substr(0, count)`; a count of `npos` (`none`) keeps the whole string. -/
def substr0 (s : List Char) : Option Nat → List Char
  | none => s
  | some n => s.take n

/-- The idiom `s.erase(std::remove(s.begin(), s.end(), c), s.end())`. -/
def eraseRemove (s : List Char) (c : Char) : List Char :=
  s.filter (fun x => x ≠ c)

/-- Lines 229-230 and 235-236: the name up to the first space, with `>` removed. -/
def contigName (header : String) : String :=
  ⟨eraseRemove (substr0 header.data (strFind header.data ' ')) '>'⟩

/-- Value of a C++ `int` expression whose mathematical value is `x`. -/
def wrapInt32 (x : Int) : Int :=
  (x + 2147483648) % 4294967296 - 2147483648

/-- Lines 239-247: `coord0` and `coord1` of a gene. -/
def cdsCoords (strand : Bool) (coord : Int × Int) : Int × Int :=
  if strand then
    (wrapInt32 (coord.1 + 1), wrapInt32 (coord.2 + 3))
  else
    (wrapInt32 (coord.2 + 1), wrapInt32 (coord.1 + 3))

/-! ## The GFF3 writer (lines 223-257) -/

/-- Line 232: the text sent to `out` for one sequence region. -/
def regionLine (contigname : String) (seq : String) : String :=
  "##sequence-region " ++ contigname ++ " " ++ toString (1 : Int) ++ " " ++ toString seq.length

/-- Lines 248-254: the text sent to `out` for one gene. -/
def cdsLine (contigname : String) (coord : Int × Int) (strand : Bool) : String :=
  contigname ++ "\tbalrog\tCDS\t" ++ toString (cdsCoords strand coord).1 ++ "\t"
    ++ toString (cdsCoords strand coord).2 ++ "\t" ++ "." ++ "\t"
    ++ (if strand then "+\t" else "-\t")
    ++ "0\tinference=ab initio prediction:Balrog;product=hypothetical protein"

/-- A loop `for (int j = start; j < v.size(); ++j)` whose body reads `v[j]` and
sends lines to `out`; `xs` is `v` from index `start` on. The result is `none`
when a body reads a vector out of range. -/
def forLoop {α : Type} (body : Nat → α → Option (List String)) :
    Nat → List α → Option (List String)
  | _, [] => some []
  | j, x :: xs =>
    match body j x with
    | none => none
    | some ls =>
      match forLoop body (j + 1) xs with
      | none => none
      | some rest => some (ls ++ rest)

/-- Lines 229-232: the body of the first loop at index `j`, `header` being
`contigname_vec[j]`. -/
def regionBody (seq_vec : List String) (j : Nat) (header : String) : Option (List String) :=
  match seq_vec[j]? with
  | none => none
  | some seq => some [regionLine (contigName header) seq]

/-- Lines 239-254: the body of the inner loop at index `k`, `coord` being
`gene_coord_vec[j][k]` and `strands` being `gene_strand_vec[j]` when `j` is in
range. -/
def geneBody (contigname : String) (strands : Option (List Bool)) (k : Nat)
    (coord : Int × Int) : Option (List String) :=
  match strands with
  | none => none
  | some sv =>
    match sv[k]? with
    | none => none
    | some strand => some [cdsLine contigname coord strand]

/-- Lines 235-255: the body of the second loop at index `j`, `header` being
`contigname_vec[j]`. -/
def cdsBody (gene_coord_vec : List (List (Int × Int))) (gene_strand_vec : List (List Bool))
    (j : Nat) (header : String) : Option (List String) :=
  match gene_coord_vec[j]? with
  | none => none
  | some coords => forLoop (geneBody (contigName header) gene_strand_vec[j]?) 0 coords

/-- Lines 225-256: every line sent to `out`, in order, a line being the text
that one `std::endl` ends; `none` when a vector is read out of range. -/
def writeGff (contigname_vec seq_vec : List String)
    (gene_coord_vec : List (List (Int × Int))) (gene_strand_vec : List (List Bool)) :
    Option (List String) :=
  match forLoop (regionBody seq_vec) 0 contigname_vec with
  | none => none
  | some regions =>
    match forLoop (cdsBody gene_coord_vec gene_strand_vec) 0 contigname_vec with
    | none => none
    | some cds => some ("##gff-version 3" :: (regions ++ cds))

/-! ## Command line, environment and effects -/

/-- The parsed command line (`result`, line 40). `inPath` and `outPath` are
`none` when `result.count` of the option is 0; `help` is `result.count("help") ≠ 0`. -/
structure Options where
  help : Bool
  inPath : Option String
  outPath : Option String
  temp : String
  maxOverlap : Int
  minLength : Int
  table : Int
  maxConnections : Int
  geneBatchSize : Int
  tisBatchSize : Int
  verbose : Bool
  mmseqs : Bool
  clearCache : Bool
  deriving DecidableEq

/-- The constructor argument of `GeneFinder` (line 185) and the arguments that
`find_genes` reads (lines 196-208); its five output vectors are `GeneResult`. -/
structure FindGenesArgs where
  temp : String
  seq : String
  table : Int
  minLength : Int
  maxOverlap : Int
  verbose : Bool
  geneBatchSize : Int
  tisBatchSize : Int
  mmseqs : Bool
  deriving DecidableEq

/-- What one `find_genes` call leaves in its five output vectors (lines 190-194). -/
structure GeneResult where
  gene_coord : List (Int × Int)
  gene_strand : List Bool
  gene_nucseq : List String
  gene_protseq : List String
  gene_score : List Float

/-- The five result vectors of lines 175-179. -/
structure GeneVecs where
  gene_coord_vec : List (List (Int × Int))
  gene_strand_vec : List (List Bool)
  gene_nucseq_vec : List (List String)
  gene_protseq_vec : List (List String)
  gene_score_vec : List (List Float)

/-- Everything `main` uses and does not define.
* `helpText`: `options.help()`.
* `isPathExist`: `IsPathExist` (lines 13-16, a `stat` call).
* `system`: the status `std::system` returns for a command.
* `infileGood`: `std::ifstream(path).good()`.
* `tmpnam`: the path `std::tmpnam(nullptr)` returns.
* `read_fasta`: `(seq_vec, contigname_vec)` as filled by `FastaReader::read_fasta`.
* `find_genes`: the outcome of the `i`-th `GeneFinder::find_genes` call; `none`
  when the call does not return (it throws, and `main` has no handler). -/
structure World where
  helpText : String
  isPathExist : String → Bool
  system : String → Int
  infileGood : String → Bool
  tmpnam : String
  read_fasta : String → List String × List String
  find_genes : Nat → FindGenesArgs → Option GeneResult

/-- One externally visible step of `main`. -/
inductive Event where
  | stdout (text : String)
  | stderr (text : String)
  | system (command : String) (status : Int)
  | extractReference (path : String)
  | readFasta (path : String)
  | findGenes (call : Nat) (args : FindGenesArgs)
  | openOut (path : String)
  | outLine (line : String)
  | closeOut
  deriving DecidableEq

/-- How a run of `main` ends: it returns a status, or a `find_genes` call does
not return (`aborted`), or a vector is read out of range (`outOfRange`). -/
inductive Exit where
  | returned (code : Int)
  | aborted
  | outOfRange
  deriving DecidableEq

/-- A run of `main`: its end and its effects in program order. -/
structure Run where
  exit : Exit
  trace : List Event
  deriving DecidableEq

/-- The lines sent to the output annotation during a run. -/
def Run.outLines (r : Run) : List String :=
  r.trace.filterMap (fun e => match e with
    | Event.outLine l => some l
    | _ => none)

/-- Whether an event opens, writes or closes the output annotation. -/
def Event.isOutput : Event → Bool
  | Event.openOut _ => true
  | Event.outLine _ => true
  | Event.closeOut => true
  | _ => false

/-- Whether an event runs an external command. -/
def Event.isSystem : Event → Bool
  | Event.system _ _ => true
  | _ => false

/-- Whether an event reads the FASTA input. -/
def Event.isReadFasta : Event → Bool
  | Event.readFasta _ => true
  | _ => false

/-- Whether an event is a `find_genes` call. -/
def Event.isFindGenes : Event → Bool
  | Event.findGenes _ _ => true
  | _ => false

/-- An event that neither reads the FASTA input, nor calls `find_genes`, nor
touches the output annotation. -/
def Event.isQuiet (e : Event) : Bool :=
  !e.isReadFasta && !e.isFindGenes && !e.isOutput

/-! ## `main` -/

/-- The guard `if (result["verbose"].as<bool>()) std::cout << text`. -/
def verboseOut (o : Options) (text : String) : List Event :=
  if o.verbose then [Event.stdout text] else []

/-- Lines 66-69: the temp directory with a trailing slash. On an empty string
`back()` is undefined; the slash is then appended. -/
def tmpDir (o : Options) : String :=
  if o.temp.data.getLast? ≠ some '/' then o.temp ++ "/" else o.temp

/-- Line 76. -/
def modelCache (o : Options) : String :=
  tmpDir o ++ "Markusjsommer_balrog_models_master/"

/-- Line 78. -/
def clearCommand (o : Options) : String :=
  "rm -rf " ++ modelCache o

/-- Lines 75-85: the events, and `some code` when `main` returns there. -/
def clearCachePhase (w : World) (o : Options) : List Event × Option Int :=
  if o.clearCache then
    if w.isPathExist (modelCache o) then
      let status := w.system (clearCommand o)
      if status ≠ 0 then
        ([Event.system (clearCommand o) status,
          Event.stderr "error clearing model cache in temp directory\n"], some (-1))
      else ([Event.system (clearCommand o) status], none)
    else ([], none)
  else ([], none)

/-- Line 108. -/
def refDbPath (o : Options) : String := tmpDir o ++ "/reference_genes.db"

/-- Line 109. -/
def refIndexPath (o : Options) : String := tmpDir o ++ "/balrog_mmseqs_index"

/-- Lines 133-136. -/
def createdbCommand (w : World) (o : Options) : String :=
  "mmseqs createdb " ++ w.tmpnam ++ " " ++ refDbPath o ++ (if o.verbose then "" else " -v 0")

/-- Lines 142-145. -/
def createindexCommand (o : Options) : String :=
  "mmseqs createindex " ++ refDbPath o ++ " " ++ refIndexPath o
    ++ (if o.verbose then "" else " -v 0")

/-- Lines 118-151, the body of `if ((not infile.good()) or clear-cache)`. -/
def buildIndex (w : World) (o : Options) : List Event × Option Int :=
  let pre := verboseOut o "Loading reference genes...\n" ++ [Event.extractReference w.tmpnam]
  let status := w.system (createdbCommand w o)
  if status ≠ 0 then
    (pre ++ [Event.system (createdbCommand w o) status,
             Event.stderr "error creating mmseqs database\n"], some (-1))
  else
    let status2 := w.system (createindexCommand o)
    if status2 ≠ 0 then
      (pre ++ [Event.system (createdbCommand w o) status,
               Event.system (createindexCommand o) status2,
               Event.stderr "error creating mmseqs index\n"], some (-1))
    else
      (pre ++ [Event.system (createdbCommand w o) status,
               Event.system (createindexCommand o) status2], none)

/-- Lines 113-115: the message is printed whether or not the index was found. -/
def foundEvents (o : Options) : List Event :=
  if o.verbose ∧ ¬ o.clearCache then
    [Event.stdout ("Found MMseqs2 index at " ++ refIndexPath o ++ "\n")]
  else []

/-- Lines 106-152. -/
def mmseqsPhase (w : World) (o : Options) : List Event × Option Int :=
  if o.mmseqs then
    if ¬ w.infileGood (refIndexPath o) ∨ o.clearCache then
      (foundEvents o ++ (buildIndex w o).1, (buildIndex w o).2)
    else (foundEvents o, none)
  else ([], none)

/-- Lines 168-172: `toupper` on every character. -/
def upper (seq : String) : String := ⟨seq.data.map Char.toUpper⟩

/-- Lines 185 and 196-208: what the `find_genes` call for `seq` receives. -/
def findGenesArgs (o : Options) (seq : String) : FindGenesArgs :=
  { temp := o.temp
    seq := seq
    table := o.table
    minLength := o.minLength
    maxOverlap := o.maxOverlap
    verbose := o.verbose
    geneBatchSize := o.geneBatchSize
    tisBatchSize := o.tisBatchSize
    mmseqs := o.mmseqs }

/-- Lines 210-214. -/
def GeneVecs.emplace_back (v : GeneVecs) (r : GeneResult) : GeneVecs :=
  { gene_coord_vec := v.gene_coord_vec ++ [r.gene_coord]
    gene_strand_vec := v.gene_strand_vec ++ [r.gene_strand]
    gene_nucseq_vec := v.gene_nucseq_vec ++ [r.gene_nucseq]
    gene_protseq_vec := v.gene_protseq_vec ++ [r.gene_protseq]
    gene_score_vec := v.gene_score_vec ++ [r.gene_score] }

/-- Lines 182-215: the loop over the sequences still to process, `i` contigs
being done and `v` holding their results; `total` is `seq_vec.size()`. The
result is `none` when a `find_genes` call does not return. -/
def contigLoop (w : World) (o : Options) (total : Nat) :
    Nat → List String → GeneVecs → List Event × Option GeneVecs
  | _, [], v => ([], some v)
  | i, seq :: rest, v =>
    let head := verboseOut o ("\ncontig " ++ toString (i + 1) ++ " of " ++ toString total
        ++ " : length " ++ toString seq.length ++ "\n")
      ++ [Event.findGenes (i + 1) (findGenesArgs o seq)]
    match w.find_genes (i + 1) (findGenesArgs o seq) with
    | none => (head, none)
    | some r =>
      (head ++ (contigLoop w o total (i + 1) rest (v.emplace_back r)).1,
       (contigLoop w o total (i + 1) rest (v.emplace_back r)).2)

/-- Lines 160-172: `seq_vec` once read and capitalised. -/
def seqVec (w : World) (in_path : String) : List String :=
  (w.read_fasta in_path).1.map upper

/-- Lines 175-215: the loop over all of `seq_vec`, from empty result vectors. -/
def predict (w : World) (o : Options) (in_path : String) : List Event × Option GeneVecs :=
  contigLoop w o (seqVec w in_path).length 0 (seqVec w in_path) ⟨[], [], [], [], []⟩

/-- Lines 157-215: the events up to the end of the loop over the contigs. -/
def predictEvents (w : World) (o : Options) (in_path : String) : List Event :=
  verboseOut o "Reading fasta...\n" ++ [Event.readFasta in_path] ++ (predict w o in_path).1

/-- Lines 220-224: the events of opening the output annotation. -/
def openEvents (o : Options) (out_path : String) : List Event :=
  verboseOut o ("Writing predicted genes to " ++ out_path ++ "\n") ++ [Event.openOut out_path]

/-- Lines 157-263: read the FASTA file, find the genes, write the annotation.
What a run that reads out of range sends to `out` is not recorded. -/
def predictAndWrite (w : World) (o : Options) (in_path out_path : String) : Run :=
  match (predict w o in_path).2 with
  | none => ⟨Exit.aborted, predictEvents w o in_path⟩
  | some v =>
    match writeGff (w.read_fasta in_path).2 (seqVec w in_path)
        v.gene_coord_vec v.gene_strand_vec with
    | none => ⟨Exit.outOfRange, predictEvents w o in_path ++ openEvents o out_path⟩
    | some lines =>
      ⟨Exit.returned 0,
       predictEvents w o in_path ++ openEvents o out_path ++ lines.map Event.outLine
         ++ [Event.closeOut] ++ verboseOut o "Done...\n\n"⟩

/-- Lines 61-263: `main` once the command line has passed its checks. -/
def prepareAndRun (w : World) (o : Options) (in_path out_path : String) : Run :=
  let start := verboseOut o ("Saving temp files to " ++ tmpDir o ++ "\n")
  match (clearCachePhase w o).2 with
  | some code => ⟨Exit.returned code, start ++ (clearCachePhase w o).1⟩
  | none =>
    match (mmseqsPhase w o).2 with
    | some code => ⟨Exit.returned code, start ++ (clearCachePhase w o).1 ++ (mmseqsPhase w o).1⟩
    | none =>
      let r := predictAndWrite w o in_path out_path
      ⟨r.exit, start ++ (clearCachePhase w o).1 ++ (mmseqsPhase w o).1 ++ r.trace⟩

/-- Line 57: the text printed for an unsupported translation table. -/
def tableMessage : String :=
  "Only translation tables 11 and 4 are currently implemented. "
    ++ "Please open a GitHub issue if you need another.\n"

/-- Lines 18-264. -/
def main (w : World) (o : Options) : Run :=
  if o.help = true ∨ o.inPath = none then
    ⟨Exit.returned 0, [Event.stdout (w.helpText ++ "\n")]⟩
  else
    match o.inPath, o.outPath with
    | some in_path, some out_path =>
      if o.table ≠ 11 ∧ o.table ≠ 4 then
        ⟨Exit.returned 0, [Event.stdout tableMessage]⟩
      else prepareAndRun w o in_path out_path
    | _, _ =>
      ⟨Exit.returned 0, [Event.stdout "Please specify input path (-i) and output path (-o)\n"]⟩

/-! ## Notions of the specification -/

/-- The fields of a line of text: the pieces between its tab characters. -/
def splitTabs : List Char → List (List Char)
  | [] => [[]]
  | c :: cs =>
    if c = '\t' then [] :: splitTabs cs
    else
      match splitTabs cs with
      | [] => [[c]]
      | field :: fields => (c :: field) :: fields

/-- The tab-separated columns of a written line. -/
def columns (line : String) : List String :=
  (splitTabs line.data).map String.mk

/-- The seqid in the words of the specification: the part of the header before
its first space, the whole header when it has none, with every `>` removed. -/
def seqidSpec (header : String) : String :=
  ⟨(header.data.takeWhile (fun c => c ≠ ' ')).filter (fun c => c ≠ '>')⟩

/-- Modelled from the spec: `GeneFinder::find_genes`, which GeneFinder.h declares
and src/ does not hold. Sections 4.1, 4.4, 7 and 8 of the specification: an empty
input sequence yields an empty candidate set and an empty GeneSet, not an
error. On any other sequence the pipeline of section 2 is the parameter
`pipeline`. -/
def find_genes_spec (pipeline : Nat → FindGenesArgs → Option GeneResult)
    (call : Nat) (args : FindGenesArgs) : Option GeneResult :=
  if args.seq.length = 0 then some ⟨[], [], [], [], []⟩ else pipeline call args

/-! ## Sample runs -/

/-- A command line with the default values of lines 24-37. -/
def defaultOptions (in_path out_path : String) : Options :=
  { help := false, inPath := some in_path, outPath := some out_path, temp := "/tmp",
    maxOverlap := 60, minLength := 90, table := 11, maxConnections := 50,
    geneBatchSize := 128, tisBatchSize := 1024, verbose := true, mmseqs := true,
    clearCache := false }

/-- A world with a cached index, one contig and one forward gene on it. -/
def sampleWorld : World :=
  { helpText := "usage"
    isPathExist := fun _ => false
    system := fun _ => 0
    infileGood := fun _ => true
    tmpnam := "/tmp/fileAbc"
    read_fasta := fun _ => (["acgtacgt"], [">chr1 sample"])
    find_genes := fun _ _ => some ⟨[(0, 3)], [true], ["ACGTAC"], ["T"], []⟩ }

/-- As `sampleWorld`, with a tab in the FASTA header before its first space. -/
def tabWorld : World :=
  { sampleWorld with read_fasta := fun _ => (["acgtacgt"], [">chr\t1 sample"]) }

/-- As `sampleWorld`, with no cached index and every external command failing. -/
def commandFailWorld : World :=
  { sampleWorld with infileGood := fun _ => false, system := fun _ => 1 }

/-- A world with two contigs: the first `find_genes` call returns one forward
gene, the second call does not return. -/
def secondContigFails : World :=
  { sampleWorld with
    read_fasta := fun _ => (["acgtacgt", "ttttcccc"], [">chr1 first", ">chr2 second"])
    find_genes := fun call _ =>
      if call = 1 then some ⟨[(0, 3)], [true], ["ACGTAC"], ["T"], []⟩ else none }

/-- As `sampleWorld`, with the single contig empty and `find_genes` as the
specification describes it. -/
def emptyContigWorld : World :=
  { sampleWorld with
    read_fasta := fun _ => ([""], [">empty contig"])
    find_genes := find_genes_spec sampleWorld.find_genes }

/-- What the two preparation phases have in common: a phase that returns
returns -1, a phase that goes on ran only commands of status 0, and no phase
reads the input, calls `find_genes` or touches the output. -/
def PhaseOk (p : List Event × Option Int) : Prop :=
  (∀ code, p.2 = some code → code = -1)
  ∧ (p.2 = none → ∀ cmd st, Event.system cmd st ∈ p.1 → st = 0)
  ∧ (∀ e ∈ p.1, e.isQuiet = true)

/-! ## Text lemmas -/

theorem digitChar_ne_tab (n : Nat) (h : n < 10) : Nat.digitChar n ≠ '\t' := by
  interval_cases n <;> decide

theorem toDigitsCore_no_tab (fuel : Nat) : ∀ (n : Nat) (ds : List Char),
    '\t' ∉ ds → '\t' ∉ Nat.toDigitsCore 10 fuel n ds := by
  induction fuel with
  | zero => intro n ds h; simpa [Nat.toDigitsCore] using h
  | succ f ih =>
    intro n ds h
    have hd : '\t' ∉ Nat.digitChar (n % 10) :: ds := by
      simp only [List.mem_cons, not_or]
      exact ⟨fun e => digitChar_ne_tab _ (Nat.mod_lt _ (by decide)) e.symm, h⟩
    unfold Nat.toDigitsCore
    by_cases h0 : n / 10 = 0
    · simpa [h0] using hd
    · simpa [h0] using ih _ _ hd

theorem nat_toString_no_tab (n : Nat) : '\t' ∉ (toString n).data := by
  show '\t' ∉ (Nat.repr n).data
  unfold Nat.repr Nat.toDigits
  simpa [List.asString] using toDigitsCore_no_tab (n + 1) n [] (by simp)

theorem int_toString_no_tab (i : Int) : '\t' ∉ (toString i).data := by
  cases i with
  | ofNat m => exact nat_toString_no_tab m
  | negSucc m =>
    show '\t' ∉ ("-" ++ toString (Nat.succ m)).data
    rw [String.data_append]
    simp only [List.mem_append, not_or]
    exact ⟨by decide, nat_toString_no_tab _⟩

theorem splitTabs_ne_nil (s : List Char) : splitTabs s ≠ [] := by
  cases s with
  | nil => simp [splitTabs]
  | cons c cs =>
    unfold splitTabs
    split
    · simp
    · split <;> simp

theorem splitTabs_no_tab (s : List Char) (h : '\t' ∉ s) : splitTabs s = [s] := by
  induction s with
  | nil => rfl
  | cons c cs ih =>
    simp only [List.mem_cons, not_or] at h
    have hc : c ≠ '\t' := fun e => h.1 e.symm
    simp [splitTabs, hc, ih h.2]

theorem splitTabs_append_tab (a rest : List Char) (h : '\t' ∉ a) :
    splitTabs (a ++ '\t' :: rest) = a :: splitTabs rest := by
  induction a with
  | nil => simp [splitTabs]
  | cons c cs ih =>
    simp only [List.mem_cons, not_or] at h
    have hc : c ≠ '\t' := fun e => h.1 e.symm
    simp [splitTabs, hc, ih h.2]

theorem wrapInt32_of_range (x : Int) (lo : -2147483648 ≤ x) (hi : x ≤ 2147483647) :
    wrapInt32 x = x := by
  unfold wrapInt32
  omega

/-! ## Loop lemmas -/

theorem forLoop_map_eq {α γ : Type} (body : Nat → α → Option (List String))
    (g : γ → α) (f : γ → List String) (ys : List γ) :
    ∀ j : Nat, (∀ i y, ys[i]? = some y → body (j + i) (g y) = some (f y)) →
      forLoop body j (ys.map g) = some (ys.flatMap f) := by
  induction ys with
  | nil => intro j _; rfl
  | cons y ys ih =>
    intro j h
    have h0 : body j (g y) = some (f y) := by simpa using h 0 y (by simp)
    have hrest : forLoop body (j + 1) (ys.map g) = some (ys.flatMap f) := by
      apply ih
      intro i z hz
      have := h (i + 1) z (by simpa using hz)
      rwa [show j + 1 + i = j + (i + 1) by omega]
    simp [forLoop, h0, hrest]

theorem forLoop_isSome {α : Type} (body : Nat → α → Option (List String)) (xs : List α) :
    ∀ j : Nat, (∀ i x, xs[i]? = some x → (body (j + i) x).isSome = true) →
      (forLoop body j xs).isSome = true := by
  induction xs with
  | nil => intro j _; rfl
  | cons x xs ih =>
    intro j h
    have h0 : (body j x).isSome = true := by simpa using h 0 x (by simp)
    have hrest : (forLoop body (j + 1) xs).isSome = true := by
      apply ih
      intro i z hz
      have := h (i + 1) z (by simpa using hz)
      rwa [show j + 1 + i = j + (i + 1) by omega]
    obtain ⟨ls, hls⟩ := Option.isSome_iff_exists.mp h0
    obtain ⟨rest, hr⟩ := Option.isSome_iff_exists.mp hrest
    simp [forLoop, hls, hr]

theorem forLoop_mem {α : Type} (body : Nat → α → Option (List String)) (xs : List α) :
    ∀ (j : Nat) (out : List String), forLoop body j xs = some out → ∀ l ∈ out,
      ∃ i x ls, xs[i]? = some x ∧ body (j + i) x = some ls ∧ l ∈ ls := by
  induction xs with
  | nil =>
    intro j out h l hl
    simp [forLoop] at h
    subst h
    simp at hl
  | cons x xs ih =>
    intro j out h l hl
    unfold forLoop at h
    cases hb : body j x with
    | none => simp [hb] at h
    | some ls =>
      cases hr : forLoop body (j + 1) xs with
      | none => simp [hb, hr] at h
      | some rest =>
        simp [hb, hr] at h
        subst h
        rcases List.mem_append.mp hl with h1 | h2
        · exact ⟨0, x, ls, by simp, by simpa using hb, h1⟩
        · obtain ⟨i, z, ls2, hz, hbz, hmem⟩ := ih (j + 1) rest hr l h2
          refine ⟨i + 1, z, ls2, by simpa using hz, ?_, hmem⟩
          rwa [show j + (i + 1) = j + 1 + i by omega]

theorem flatMap_singleton_eq_map {γ : Type} (f : γ → String) (ys : List γ) :
    ys.flatMap (fun y => [f y]) = ys.map f := by
  induction ys with
  | nil => rfl
  | cons y ys ih => simp [List.flatMap_cons, ih]

theorem regionLine_text (contigname seq : String) :
    regionLine contigname seq
      = "##sequence-region " ++ contigname ++ " 1 " ++ toString seq.length := by
  have h1 : toString (1 : Int) = "1" := by decide
  apply String.ext
  simp [regionLine, h1, String.data_append]

theorem geneLoop_pairs (contigname : String) (gs : List ((Int × Int) × Bool)) :
    forLoop (geneBody contigname (some (gs.map Prod.snd))) 0 (gs.map Prod.fst)
      = some (gs.map (fun g => cdsLine contigname g.1 g.2)) := by
  rw [← flatMap_singleton_eq_map]
  apply forLoop_map_eq
  intro i y hy
  simp [geneBody, List.getElem?_map, hy]

theorem substr0_strFind (s : List Char) (c : Char) :
    substr0 s (strFind s c) = s.takeWhile (fun x => x ≠ c) := by
  induction s with
  | nil => rfl
  | cons x xs ih =>
    by_cases hx : x = c
    · simp [strFind, substr0, hx]
    · cases hf : strFind xs c with
      | none =>
        rw [hf] at ih
        simp only [substr0] at ih
        simp only [strFind, substr0, hx, hf, if_false, Option.map_none', List.takeWhile_cons,
          ne_eq, not_false_eq_true, decide_True, if_true]
        rw [← ih]
      | some n =>
        rw [hf] at ih
        simp only [substr0] at ih
        simp only [strFind, substr0, hx, hf, if_false, Option.map_some', List.takeWhile_cons,
          ne_eq, not_false_eq_true, decide_True, if_true, List.take_succ_cons]
        rw [← ih]

theorem regionBody_line (seq_vec : List String) (j : Nat) (header : String)
    (ls : List String) (l : String) (h : regionBody seq_vec j header = some ls) (hl : l ∈ ls) :
    ∃ seq, seq_vec[j]? = some seq ∧ l = regionLine (contigName header) seq := by
  unfold regionBody at h
  cases hs : seq_vec[j]? with
  | none => simp [hs] at h
  | some seq =>
    simp [hs] at h
    subst h
    exact ⟨seq, rfl, by simpa using hl⟩

theorem geneBody_line (contigname : String) (strands : Option (List Bool)) (k : Nat)
    (coord : Int × Int) (ls : List String) (l : String)
    (h : geneBody contigname strands k coord = some ls) (hl : l ∈ ls) :
    ∃ sv strand, strands = some sv ∧ sv[k]? = some strand
      ∧ l = cdsLine contigname coord strand := by
  unfold geneBody at h
  cases strands with
  | none => simp at h
  | some sv =>
    cases hk : sv[k]? with
    | none => simp [hk] at h
    | some strand =>
      simp [hk] at h
      subst h
      exact ⟨sv, strand, rfl, hk, by simpa using hl⟩

theorem cdsBody_line (gene_coord_vec : List (List (Int × Int)))
    (gene_strand_vec : List (List Bool)) (j : Nat) (header : String)
    (ls : List String) (l : String)
    (h : cdsBody gene_coord_vec gene_strand_vec j header = some ls) (hl : l ∈ ls) :
    ∃ (coords : List (Int × Int)) (sv : List Bool) (k : Nat) (coord : Int × Int)
      (strand : Bool), gene_coord_vec[j]? = some coords
      ∧ gene_strand_vec[j]? = some sv ∧ coords[k]? = some coord ∧ sv[k]? = some strand
      ∧ l = cdsLine (contigName header) coord strand := by
  unfold cdsBody at h
  cases hc : gene_coord_vec[j]? with
  | none => simp [hc] at h
  | some coords =>
    simp only [hc] at h
    obtain ⟨k, coord, ls2, hk, hb, hmem⟩ := forLoop_mem _ coords 0 ls h l hl
    obtain ⟨sv, strand, hsv, hst, hline⟩ := geneBody_line _ _ _ _ _ _ hb hmem
    exact ⟨coords, sv, k, coord, strand, rfl, hsv, hk, by simpa using hst, hline⟩

/-! ## Trace lemmas -/

theorem verboseOut_cases (o : Options) (text : String) :
    verboseOut o text = [] ∨ verboseOut o text = [Event.stdout text] := by
  unfold verboseOut
  cases o.verbose <;> simp

theorem verboseOut_mem (o : Options) (text : String) (e : Event)
    (h : e ∈ verboseOut o text) : e = Event.stdout text := by
  rcases verboseOut_cases o text with h0 | h1
  · simp [h0] at h
  · simpa [h1] using h

theorem clearCachePhase_cases (w : World) (o : Options) :
    clearCachePhase w o = ([], none)
    ∨ (w.system (clearCommand o) = 0
        ∧ clearCachePhase w o = ([Event.system (clearCommand o) 0], none))
    ∨ (w.system (clearCommand o) ≠ 0
        ∧ clearCachePhase w o
          = ([Event.system (clearCommand o) (w.system (clearCommand o)),
              Event.stderr "error clearing model cache in temp directory\n"], some (-1))) := by
  unfold clearCachePhase
  by_cases h1 : o.clearCache = true
  · by_cases h2 : w.isPathExist (modelCache o) = true
    · by_cases h3 : w.system (clearCommand o) = 0
      · simp [h1, h2, h3]
      · simp [h1, h2, h3]
    · simp [h1, h2]
  · simp [h1]

theorem buildIndex_cases (w : World) (o : Options) :
    (w.system (createdbCommand w o) ≠ 0
      ∧ buildIndex w o
        = (verboseOut o "Loading reference genes...\n" ++ [Event.extractReference w.tmpnam]
            ++ [Event.system (createdbCommand w o) (w.system (createdbCommand w o)),
                Event.stderr "error creating mmseqs database\n"], some (-1)))
    ∨ (w.system (createdbCommand w o) = 0 ∧ w.system (createindexCommand o) ≠ 0
      ∧ buildIndex w o
        = (verboseOut o "Loading reference genes...\n" ++ [Event.extractReference w.tmpnam]
            ++ [Event.system (createdbCommand w o) 0,
                Event.system (createindexCommand o) (w.system (createindexCommand o)),
                Event.stderr "error creating mmseqs index\n"], some (-1)))
    ∨ (w.system (createdbCommand w o) = 0 ∧ w.system (createindexCommand o) = 0
      ∧ buildIndex w o
        = (verboseOut o "Loading reference genes...\n" ++ [Event.extractReference w.tmpnam]
            ++ [Event.system (createdbCommand w o) 0,
                Event.system (createindexCommand o) 0], none)) := by
  unfold buildIndex
  by_cases h1 : w.system (createdbCommand w o) = 0
  · by_cases h2 : w.system (createindexCommand o) = 0
    · simp [h1, h2]
    · simp [h1, h2]
  · simp [h1]

theorem contigLoop_trace (w : World) (o : Options) (total : Nat) (seqs : List String) :
    ∀ (i : Nat) (v : GeneVecs), ∀ e ∈ (contigLoop w o total i seqs v).1,
      e.isSystem = false ∧ e.isOutput = false ∧ e.isReadFasta = false := by
  induction seqs with
  | nil => intro i v e he; simp [contigLoop] at he
  | cons seq rest ih =>
    intro i v e he
    unfold contigLoop at he
    cases hf : w.find_genes (i + 1) (findGenesArgs o seq) with
    | none =>
      simp only [hf, List.mem_append, List.mem_singleton] at he
      rcases he with h1 | h2
      · rw [verboseOut_mem _ _ _ h1]; simp [Event.isSystem, Event.isOutput, Event.isReadFasta]
      · rw [h2]; simp [Event.isSystem, Event.isOutput, Event.isReadFasta]
    | some r =>
      simp only [hf, List.mem_append, List.mem_singleton] at he
      rcases he with (h1 | h2) | h3
      · rw [verboseOut_mem _ _ _ h1]; simp [Event.isSystem, Event.isOutput, Event.isReadFasta]
      · rw [h2]; simp [Event.isSystem, Event.isOutput, Event.isReadFasta]
      · exact ih _ _ e h3

theorem predictEvents_mem (w : World) (o : Options) (in_path : String) :
    ∀ e ∈ predictEvents w o in_path, e.isSystem = false ∧ e.isOutput = false := by
  intro e he
  unfold predictEvents at he
  simp only [List.mem_append, List.mem_singleton] at he
  rcases he with (h1 | h2) | h3
  · rw [verboseOut_mem _ _ _ h1]; simp [Event.isSystem, Event.isOutput]
  · rw [h2]; simp [Event.isSystem, Event.isOutput]
  · exact ⟨(contigLoop_trace w o _ _ _ _ e h3).1, (contigLoop_trace w o _ _ _ _ e h3).2.1⟩

theorem openEvents_mem (o : Options) (out_path : String) :
    ∀ e ∈ openEvents o out_path, e.isSystem = false := by
  intro e he
  unfold openEvents at he
  simp only [List.mem_append, List.mem_singleton] at he
  rcases he with h1 | h2
  · rw [verboseOut_mem _ _ _ h1]; rfl
  · rw [h2]; rfl

theorem predictAndWrite_cases (w : World) (o : Options) (in_path out_path : String) :
    ((predict w o in_path).2 = none
      ∧ predictAndWrite w o in_path out_path = ⟨Exit.aborted, predictEvents w o in_path⟩)
    ∨ (∃ v, (predict w o in_path).2 = some v
      ∧ writeGff (w.read_fasta in_path).2 (seqVec w in_path)
          v.gene_coord_vec v.gene_strand_vec = none
      ∧ predictAndWrite w o in_path out_path
        = ⟨Exit.outOfRange, predictEvents w o in_path ++ openEvents o out_path⟩)
    ∨ (∃ v lines, (predict w o in_path).2 = some v
      ∧ writeGff (w.read_fasta in_path).2 (seqVec w in_path)
          v.gene_coord_vec v.gene_strand_vec = some lines
      ∧ predictAndWrite w o in_path out_path
        = ⟨Exit.returned 0,
           predictEvents w o in_path ++ openEvents o out_path ++ lines.map Event.outLine
             ++ [Event.closeOut] ++ verboseOut o "Done...\n\n"⟩) := by
  unfold predictAndWrite
  cases hp : (predict w o in_path).2 with
  | none => exact Or.inl ⟨rfl, rfl⟩
  | some v =>
    cases hw : writeGff (w.read_fasta in_path).2 (seqVec w in_path)
        v.gene_coord_vec v.gene_strand_vec with
    | none => exact Or.inr (Or.inl ⟨v, rfl, hw, by simp [hw]⟩)
    | some lines => exact Or.inr (Or.inr ⟨v, lines, rfl, hw, by simp [hw]⟩)

theorem predictAndWrite_no_system (w : World) (o : Options) (in_path out_path : String) :
    ∀ e ∈ (predictAndWrite w o in_path out_path).trace, e.isSystem = false := by
  intro e he
  have hv : ∀ text, e ∈ verboseOut o text → e.isSystem = false := by
    intro text h; rw [verboseOut_mem _ _ _ h]; rfl
  rcases predictAndWrite_cases w o in_path out_path with
    ⟨_, h⟩ | ⟨v, _, _, h⟩ | ⟨v, ls, _, _, h⟩
  · rw [h] at he
    exact (predictEvents_mem w o in_path e he).1
  · rw [h] at he
    simp only [List.mem_append] at he
    rcases he with h1 | h2
    · exact (predictEvents_mem w o in_path e h1).1
    · exact openEvents_mem o out_path e h2
  · rw [h] at he
    simp only [List.mem_append, List.mem_singleton, List.mem_map] at he
    rcases he with (((h1 | h2) | ⟨l, _, h3⟩) | h4) | h5
    · exact (predictEvents_mem w o in_path e h1).1
    · exact openEvents_mem o out_path e h2
    · rw [← h3]; rfl
    · rw [h4]; rfl
    · exact hv _ h5

theorem clearCachePhase_ok (w : World) (o : Options) : PhaseOk (clearCachePhase w o) := by
  rcases clearCachePhase_cases w o with h | ⟨_, h⟩ | ⟨_, h⟩ <;>
    simp [PhaseOk, h, Event.isQuiet, Event.isReadFasta, Event.isFindGenes, Event.isOutput]

theorem foundEvents_mem (o : Options) (e : Event) (h : e ∈ foundEvents o) :
    ∃ text, e = Event.stdout text := by
  unfold foundEvents at h
  split at h
  · exact ⟨_, by simpa using h⟩
  · simp at h

theorem buildIndex_ok (w : World) (o : Options) : PhaseOk (buildIndex w o) := by
  rcases verboseOut_cases o "Loading reference genes...\n" with hv | hv <;>
    rcases buildIndex_cases w o with ⟨_, h⟩ | ⟨_, _, h⟩ | ⟨_, _, h⟩ <;>
      simp [PhaseOk, h, hv, Event.isQuiet, Event.isReadFasta, Event.isFindGenes,
        Event.isOutput]
  all_goals
    intro cmd st hh
    rcases hh with ⟨_, h0⟩ | ⟨_, h0⟩ <;> exact h0

theorem mmseqsPhase_cases (w : World) (o : Options) :
    (o.mmseqs = false ∧ mmseqsPhase w o = ([], none))
    ∨ (o.mmseqs = true ∧ mmseqsPhase w o = (foundEvents o, none))
    ∨ (o.mmseqs = true ∧ (w.infileGood (refIndexPath o) = false ∨ o.clearCache = true)
        ∧ mmseqsPhase w o = (foundEvents o ++ (buildIndex w o).1, (buildIndex w o).2)) := by
  unfold mmseqsPhase
  by_cases h1 : o.mmseqs = true
  · by_cases h2 : ¬ w.infileGood (refIndexPath o) = true ∨ o.clearCache = true
    · refine Or.inr (Or.inr ⟨h1, ?_, ?_⟩)
      · rcases h2 with h | h
        · exact Or.inl (by simpa using h)
        · exact Or.inr h
      · rw [if_pos h1, if_pos h2]
    · refine Or.inr (Or.inl ⟨h1, ?_⟩)
      rw [if_pos h1, if_neg h2]
  · refine Or.inl ⟨by simpa using h1, ?_⟩
    rw [if_neg h1]

theorem mmseqsPhase_ok (w : World) (o : Options) : PhaseOk (mmseqsPhase w o) := by
  have hfound : ∀ e ∈ foundEvents o,
      e.isQuiet = true ∧ ∀ cmd st, e ≠ Event.system cmd st := by
    intro e he
    obtain ⟨text, ht⟩ := foundEvents_mem o e he
    subst ht
    exact ⟨rfl, fun _ _ h => by cases h⟩
  rcases mmseqsPhase_cases w o with ⟨_, h⟩ | ⟨_, h⟩ | ⟨_, _, h⟩
  · simp [PhaseOk, h]
  · rw [h]
    refine ⟨by simp, ?_, fun e he => (hfound e he).1⟩
    intro _ cmd st hmem
    exact absurd rfl ((hfound _ hmem).2 cmd st)
  · rw [h]
    obtain ⟨b1, b2, b3⟩ := buildIndex_ok w o
    refine ⟨b1, ?_, ?_⟩
    · intro hn cmd st hmem
      rcases List.mem_append.mp hmem with h1 | h2
      · exact absurd rfl ((hfound _ h1).2 cmd st)
      · exact b2 hn cmd st h2
    · intro e he
      rcases List.mem_append.mp he with h1 | h2
      · exact (hfound e h1).1
      · exact b3 e h2

theorem main_cases (w : World) (o : Options) :
    (∃ text, main w o = ⟨Exit.returned 0, [Event.stdout text]⟩)
    ∨ (∃ in_path out_path, o.help = false ∧ o.inPath = some in_path
        ∧ o.outPath = some out_path ∧ (o.table = 11 ∨ o.table = 4)
        ∧ main w o = prepareAndRun w o in_path out_path) := by
  unfold main
  by_cases h1 : o.help = true ∨ o.inPath = none
  · refine Or.inl ⟨w.helpText ++ "\n", ?_⟩
    rw [if_pos h1]
  · rw [if_neg h1]
    have hh : o.help = false := by
      cases hb : o.help with
      | false => rfl
      | true => exact absurd (Or.inl hb) h1
    obtain ⟨in_path, hi⟩ : ∃ in_path, o.inPath = some in_path := by
      cases hi : o.inPath with
      | none => exact absurd (Or.inr hi) h1
      | some in_path => exact ⟨in_path, rfl⟩
    cases ho : o.outPath with
    | none =>
      refine Or.inl ⟨"Please specify input path (-i) and output path (-o)\n", ?_⟩
      simp only [hi]
    | some out_path =>
      by_cases ht : o.table ≠ 11 ∧ o.table ≠ 4
      · refine Or.inl ⟨tableMessage, ?_⟩
        simp only [hi]
        rw [if_pos ht]
      · refine Or.inr ⟨in_path, out_path, hh, hi, rfl, by omega, ?_⟩
        simp only [hi]
        rw [if_neg ht]

theorem prepareAndRun_cases (w : World) (o : Options) (in_path out_path : String) :
    ((clearCachePhase w o).2 = some (-1)
      ∧ prepareAndRun w o in_path out_path
        = ⟨Exit.returned (-1),
           verboseOut o ("Saving temp files to " ++ tmpDir o ++ "\n")
             ++ (clearCachePhase w o).1⟩)
    ∨ ((clearCachePhase w o).2 = none ∧ (mmseqsPhase w o).2 = some (-1)
      ∧ prepareAndRun w o in_path out_path
        = ⟨Exit.returned (-1),
           verboseOut o ("Saving temp files to " ++ tmpDir o ++ "\n")
             ++ (clearCachePhase w o).1 ++ (mmseqsPhase w o).1⟩)
    ∨ ((clearCachePhase w o).2 = none ∧ (mmseqsPhase w o).2 = none
      ∧ prepareAndRun w o in_path out_path
        = ⟨(predictAndWrite w o in_path out_path).exit,
           verboseOut o ("Saving temp files to " ++ tmpDir o ++ "\n")
             ++ (clearCachePhase w o).1 ++ (mmseqsPhase w o).1
             ++ (predictAndWrite w o in_path out_path).trace⟩) := by
  unfold prepareAndRun
  cases hc : (clearCachePhase w o).2 with
  | some code =>
    have := (clearCachePhase_ok w o).1 code hc
    subst this
    exact Or.inl ⟨rfl, rfl⟩
  | none =>
    cases hm : (mmseqsPhase w o).2 with
    | some code =>
      have := (mmseqsPhase_ok w o).1 code hm
      subst this
      exact Or.inr (Or.inl ⟨rfl, rfl, rfl⟩)
    | none => exact Or.inr (Or.inr ⟨rfl, rfl, rfl⟩)

theorem verboseOut_quiet (o : Options) (text : String) :
    ∀ e ∈ verboseOut o text, e.isQuiet = true ∧ ∀ cmd st, e ≠ Event.system cmd st := by
  intro e he
  rw [verboseOut_mem _ _ _ he]
  exact ⟨rfl, fun _ _ h => by cases h⟩

theorem isQuiet_iff (e : Event) :
    e.isQuiet = true
      ↔ e.isReadFasta = false ∧ e.isFindGenes = false ∧ e.isOutput = false := by
  cases e <;> simp [Event.isQuiet, Event.isReadFasta, Event.isFindGenes, Event.isOutput]

theorem prepare_failed_quiet (w : World) (o : Options) (in_path out_path : String)
    (h : (clearCachePhase w o).2 = some (-1)
      ∨ ((clearCachePhase w o).2 = none ∧ (mmseqsPhase w o).2 = some (-1))) :
    (prepareAndRun w o in_path out_path).exit = Exit.returned (-1)
    ∧ ∀ e ∈ (prepareAndRun w o in_path out_path).trace, e.isQuiet = true := by
  have hc := (clearCachePhase_ok w o).2.2
  have hm := (mmseqsPhase_ok w o).2.2
  rcases prepareAndRun_cases w o in_path out_path with
    ⟨_, hrun⟩ | ⟨_, _, hrun⟩ | ⟨h1, h2, _⟩
  · rw [hrun]
    refine ⟨rfl, fun e he => ?_⟩
    rcases List.mem_append.mp he with h1 | h2
    · exact (verboseOut_quiet _ _ e h1).1
    · exact hc e h2
  · rw [hrun]
    refine ⟨rfl, fun e he => ?_⟩
    simp only [List.mem_append] at he
    rcases he with (h1 | h2) | h3
    · exact (verboseOut_quiet _ _ e h1).1
    · exact hc e h2
    · exact hm e h3
  · rcases h with h | ⟨_, h⟩
    · rw [h1] at h; cases h
    · rw [h2] at h; cases h

theorem nonzero_status_fatal (w : World) (o : Options) (cmd : String) (st : Int)
    (hmem : Event.system cmd st ∈ (main w o).trace) (hst : st ≠ 0) :
    (main w o).exit = Exit.returned (-1) ∧ ∀ e ∈ (main w o).trace, e.isQuiet = true := by
  rcases main_cases w o with ⟨text, h⟩ | ⟨in_path, out_path, _, _, _, _, h⟩
  · rw [h] at hmem
    simp at hmem
  · rw [h] at hmem ⊢
    rcases prepareAndRun_cases w o in_path out_path with
      ⟨h1, _⟩ | ⟨h1, h2, _⟩ | ⟨h1, h2, hrun⟩
    · exact prepare_failed_quiet w o in_path out_path (Or.inl h1)
    · exact prepare_failed_quiet w o in_path out_path (Or.inr ⟨h1, h2⟩)
    · rw [hrun] at hmem
      simp only [List.mem_append] at hmem
      rcases hmem with ((h3 | h4) | h5) | h6
      · exact absurd rfl ((verboseOut_quiet _ _ _ h3).2 cmd st)
      · exact absurd ((clearCachePhase_ok w o).2.1 h1 cmd st h4) hst
      · exact absurd ((mmseqsPhase_ok w o).2.1 h2 cmd st h5) hst
      · have := predictAndWrite_no_system w o in_path out_path _ h6
        simp [Event.isSystem] at this

theorem clearCommand_ne (w : World) (o : Options) :
    clearCommand o ≠ createdbCommand w o ∧ clearCommand o ≠ createindexCommand o := by
  constructor
  · intro h
    have := congrArg String.data h
    simp [clearCommand, createdbCommand, String.data_append] at this
  · intro h
    have := congrArg String.data h
    simp [clearCommand, createindexCommand, String.data_append] at this

theorem system_events_without_mmseqs (w : World) (o : Options) (hm : o.mmseqs = false)
    (cmd : String) (st : Int) (hmem : Event.system cmd st ∈ (main w o).trace) :
    cmd = clearCommand o := by
  have hclear : ∀ st, Event.system cmd st ∈ (clearCachePhase w o).1 →
      cmd = clearCommand o := by
    intro st h
    rcases clearCachePhase_cases w o with h0 | ⟨_, h0⟩ | ⟨_, h0⟩ <;> rw [h0] at h <;>
      simp at h
    · exact h.1
    · exact h.1
  have hmm : mmseqsPhase w o = ([], none) := by
    rcases mmseqsPhase_cases w o with ⟨_, h⟩ | ⟨h, _⟩ | ⟨h, _⟩
    · exact h
    · rw [hm] at h; cases h
    · rw [hm] at h; cases h
  rcases main_cases w o with ⟨text, h⟩ | ⟨in_path, out_path, _, _, _, _, h⟩
  · rw [h] at hmem
    simp at hmem
  · rw [h] at hmem
    rcases prepareAndRun_cases w o in_path out_path with
      ⟨_, hrun⟩ | ⟨_, _, hrun⟩ | ⟨_, _, hrun⟩
    · rw [hrun] at hmem
      rcases List.mem_append.mp hmem with h1 | h2
      · exact absurd rfl ((verboseOut_quiet _ _ _ h1).2 cmd st)
      · exact hclear st h2
    · rw [hrun, hmm] at hmem
      simp only [List.mem_append, List.append_nil] at hmem
      rcases hmem with h1 | h2
      · exact absurd rfl ((verboseOut_quiet _ _ _ h1).2 cmd st)
      · exact hclear st h2
    · rw [hrun, hmm] at hmem
      simp only [List.mem_append, List.append_nil] at hmem
      rcases hmem with (h1 | h2) | h3
      · exact absurd rfl ((verboseOut_quiet _ _ _ h1).2 cmd st)
      · exact hclear st h2
      · have := predictAndWrite_no_system w o in_path out_path _ h3
        simp [Event.isSystem] at this

theorem main_of_valid (w : World) (o : Options) (in_path out_path : String)
    (hh : o.help = false) (hi : o.inPath = some in_path) (ho : o.outPath = some out_path)
    (ht : o.table = 11 ∨ o.table = 4) : main w o = prepareAndRun w o in_path out_path := by
  unfold main
  have h1 : ¬ (o.help = true ∨ o.inPath = none) := by simp [hh, hi]
  have h2 : ¬ (o.table ≠ 11 ∧ o.table ≠ 4) := by omega
  rw [if_neg h1]
  simp only [hi, ho]
  rw [if_neg h2]

/-! ## The loop over the contigs -/

theorem contigLoop_fail (w : World) (o : Options) (total : Nat) (seqs : List String) :
    ∀ (i : Nat) (v : GeneVecs) (k : Nat) (seq : String), seqs[k]? = some seq →
      w.find_genes (i + k + 1) (findGenesArgs o seq) = none →
      (contigLoop w o total i seqs v).2 = none := by
  induction seqs with
  | nil => intro i v k seq hk; simp at hk
  | cons s rest ih =>
    intro i v k seq hk hf
    unfold contigLoop
    cases hs : w.find_genes (i + 1) (findGenesArgs o s) with
    | none => rfl
    | some r =>
      cases k with
      | zero =>
        simp at hk
        subst hk
        rw [hs] at hf
        cases hf
      | succ k =>
        simp only [List.getElem?_cons_succ] at hk
        exact ih (i + 1) _ k seq hk (by rwa [show i + 1 + k + 1 = i + (k + 1) + 1 by omega])

theorem contigLoop_some (w : World) (o : Options) (total : Nat) (seqs : List String) :
    ∀ (i : Nat) (v out : GeneVecs), (contigLoop w o total i seqs v).2 = some out →
      ∃ rs : List GeneResult, rs.length = seqs.length
        ∧ (∀ k seq, seqs[k]? = some seq →
            ∃ r, rs[k]? = some r ∧ w.find_genes (i + k + 1) (findGenesArgs o seq) = some r)
        ∧ out.gene_coord_vec = v.gene_coord_vec ++ rs.map (fun r => r.gene_coord)
        ∧ out.gene_strand_vec = v.gene_strand_vec ++ rs.map (fun r => r.gene_strand) := by
  induction seqs with
  | nil =>
    intro i v out h
    simp [contigLoop] at h
    subst h
    exact ⟨[], rfl, by simp, by simp, by simp⟩
  | cons s rest ih =>
    intro i v out h
    unfold contigLoop at h
    cases hs : w.find_genes (i + 1) (findGenesArgs o s) with
    | none => simp [hs] at h
    | some r =>
      simp only [hs] at h
      obtain ⟨rs, hlen, hall, hc, hstr⟩ := ih (i + 1) _ out h
      refine ⟨r :: rs, by simp [hlen], ?_, ?_, ?_⟩
      · intro k seq hk
        cases k with
        | zero =>
          simp at hk
          subst hk
          exact ⟨r, by simp, hs⟩
        | succ k =>
          simp only [List.getElem?_cons_succ] at hk
          obtain ⟨r2, h1, h2⟩ := hall k seq hk
          exact ⟨r2, by simpa using h1, by rwa [show i + (k + 1) + 1 = i + 1 + k + 1 by omega]⟩
      · simp [hc, GeneVecs.emplace_back]
      · simp [hstr, GeneVecs.emplace_back]

theorem predict_some (w : World) (o : Options) (in_path : String) (v : GeneVecs)
    (h : (predict w o in_path).2 = some v) :
    v.gene_coord_vec.length = (w.read_fasta in_path).1.length
    ∧ v.gene_strand_vec.length = (w.read_fasta in_path).1.length
    ∧ ∀ j seq, (w.read_fasta in_path).1[j]? = some seq →
        ∃ r, w.find_genes (j + 1) (findGenesArgs o (upper seq)) = some r
          ∧ v.gene_coord_vec[j]? = some r.gene_coord
          ∧ v.gene_strand_vec[j]? = some r.gene_strand := by
  obtain ⟨rs, hlen, hall, hc, hs⟩ := contigLoop_some w o _ _ 0 _ v h
  simp only [List.nil_append] at hc hs
  have hl : rs.length = (w.read_fasta in_path).1.length := by simpa [seqVec] using hlen
  refine ⟨by simp [hc, hl], by simp [hs, hl], ?_⟩
  intro j seq hj
  have hj2 : (seqVec w in_path)[j]? = some (upper seq) := by
    simp [seqVec, List.getElem?_map, hj]
  obtain ⟨r, h1, h2⟩ := hall j (upper seq) hj2
  refine ⟨r, by simpa using h2, ?_, ?_⟩
  · simp [hc, List.getElem?_map, h1]
  · simp [hs, List.getElem?_map, h1]

theorem outLines_nil (evs : List Event) (h : ∀ l, Event.outLine l ∉ evs) :
    (evs.filterMap (fun e => match e with
      | Event.outLine l => some l
      | _ => none)) = [] := by
  induction evs with
  | nil => rfl
  | cons e rest ih =>
    have hr := ih (fun l hl => h l (by simp [hl]))
    cases e with
    | outLine l => exact absurd (List.mem_cons_self _ _) (h l)
    | _ => simpa using hr

theorem outLines_of_quiet (evs : List Event) (h : ∀ e ∈ evs, e.isOutput = false) :
    (evs.filterMap (fun e => match e with
      | Event.outLine l => some l
      | _ => none)) = [] := by
  apply outLines_nil
  intro l hl
  have := h _ hl
  simp [Event.isOutput] at this

theorem outLines_of_lines (lines : List String) :
    ((lines.map Event.outLine).filterMap (fun e => match e with
      | Event.outLine l => some l
      | _ => none)) = lines := by
  induction lines with
  | nil => rfl
  | cons l rest ih => simp [ih]

theorem isOutput_of_quiet (e : Event) (h : e.isQuiet = true) : e.isOutput = false :=
  ((isQuiet_iff e).mp h).2.2

theorem main_writes (w : World) (o : Options) (in_path out_path : String) (v : GeneVecs)
    (lines : List String)
    (hh : o.help = false) (hi : o.inPath = some in_path) (ho : o.outPath = some out_path)
    (ht : o.table = 11 ∨ o.table = 4) (hc : (clearCachePhase w o).2 = none)
    (hm : (mmseqsPhase w o).2 = none) (hp : (predict w o in_path).2 = some v)
    (hw : writeGff (w.read_fasta in_path).2 (seqVec w in_path)
        v.gene_coord_vec v.gene_strand_vec = some lines) :
    (main w o).exit = Exit.returned 0 ∧ (main w o).outLines = lines := by
  rw [main_of_valid w o in_path out_path hh hi ho ht]
  have hrun : predictAndWrite w o in_path out_path
      = ⟨Exit.returned 0,
         predictEvents w o in_path ++ openEvents o out_path ++ lines.map Event.outLine
           ++ [Event.closeOut] ++ verboseOut o "Done...\n\n"⟩ := by
    unfold predictAndWrite
    simp only [hp, hw]
  rcases prepareAndRun_cases w o in_path out_path with
    ⟨h1, _⟩ | ⟨_, h2, _⟩ | ⟨_, _, h⟩
  · rw [hc] at h1; cases h1
  · rw [hm] at h2; cases h2
  · rw [h, hrun]
    refine ⟨rfl, ?_⟩
    have q1 := outLines_of_quiet _ (fun e he =>
      isOutput_of_quiet e
        ((verboseOut_quiet o ("Saving temp files to " ++ tmpDir o ++ "\n") e he).1))
    have q2 := outLines_of_quiet _ (fun e he =>
      isOutput_of_quiet e ((clearCachePhase_ok w o).2.2 e he))
    have q3 := outLines_of_quiet _ (fun e he =>
      isOutput_of_quiet e ((mmseqsPhase_ok w o).2.2 e he))
    have q4 := outLines_of_quiet _ (fun e he => (predictEvents_mem w o in_path e he).2)
    have q5 : ((openEvents o out_path).filterMap (fun e => match e with
        | Event.outLine l => some l
        | _ => none)) = [] := by
      apply outLines_nil
      intro l hl
      unfold openEvents at hl
      simp only [List.mem_append, List.mem_singleton] at hl
      rcases hl with h1 | h2
      · have := verboseOut_mem _ _ _ h1
        cases this
      · cases h2
    have q6 := outLines_of_quiet _ (fun e he =>
      isOutput_of_quiet e ((verboseOut_quiet o "Done...\n\n" e he).1))
    simp only [Run.outLines, List.filterMap_append, q1, q2, q3, q4, q5, q6, outLines_of_lines]
    simp

theorem contigLoop_maxConnections (w : World) (o : Options) (n : Int) (total : Nat)
    (seqs : List String) : ∀ (i : Nat) (v : GeneVecs),
      contigLoop w { o with maxConnections := n } total i seqs v
        = contigLoop w o total i seqs v := by
  induction seqs with
  | nil => intro i v; rfl
  | cons seq rest ih =>
    intro i v
    unfold contigLoop
    have ha : findGenesArgs { o with maxConnections := n } seq = findGenesArgs o seq := rfl
    have hv : ∀ text, verboseOut { o with maxConnections := n } text = verboseOut o text :=
      fun _ => rfl
    rw [ha, hv]
    cases w.find_genes (i + 1) (findGenesArgs o seq) with
    | none => rfl
    | some r => simp only [ih]

theorem writeGff_isSome (names seqs : List String) (cv : List (List (Int × Int)))
    (sv : List (List Bool))
    (h : ∀ (j : Nat) (header : String), names[j]? = some header →
      ∃ (seq : String) (coords : List (Int × Int)) (strands : List Bool),
        seqs[j]? = some seq ∧ cv[j]? = some coords
        ∧ sv[j]? = some strands ∧ coords.length ≤ strands.length) :
    (writeGff names seqs cv sv).isSome = true := by
  have hr : (forLoop (regionBody seqs) 0 names).isSome = true := by
    apply forLoop_isSome
    intro i header hi
    obtain ⟨seq, _, _, hs, _⟩ := h i header hi
    simp [regionBody, hs]
  have hc : (forLoop (cdsBody cv sv) 0 names).isSome = true := by
    apply forLoop_isSome
    intro i header hi
    obtain ⟨_, coords, strands, _, h1, h2, hle⟩ := h i header hi
    simp only [cdsBody, Nat.zero_add, h1, h2]
    apply forLoop_isSome
    intro k coord hk
    have hlt : k < strands.length := by
      obtain ⟨hk2, _⟩ := List.getElem?_eq_some.mp hk
      omega
    simp [geneBody, List.getElem?_eq_getElem hlt]
  obtain ⟨regions, h1⟩ := Option.isSome_iff_exists.mp hr
  obtain ⟨cds, h2⟩ := Option.isSome_iff_exists.mp hc
  simp [writeGff, h1, h2]

/-! ## The claims -/

/-- C1: the start and end written on the CDS line of a gene with internal pair
(first, second), both `int` values that leave room for the additions: a forward
gene (flag true) has start first + 1 and end second + 3, a reverse gene (flag
false) has start second + 1 and end first + 3. -/
theorem cds_start_end (contigname : String) (first second : Int)
    (hf : -2147483648 ≤ first ∧ first + 3 ≤ 2147483647)
    (hs : -2147483648 ≤ second ∧ second + 3 ≤ 2147483647) :
    cdsCoords true (first, second) = (first + 1, second + 3)
    ∧ cdsCoords false (first, second) = (second + 1, first + 3)
    ∧ cdsLine contigname (first, second) true
        = contigname ++ "\tbalrog\tCDS\t" ++ toString (first + 1) ++ "\t"
          ++ toString (second + 3)
          ++ "\t.\t+\t0\tinference=ab initio prediction:Balrog;product=hypothetical protein"
    ∧ cdsLine contigname (first, second) false
        = contigname ++ "\tbalrog\tCDS\t" ++ toString (second + 1) ++ "\t"
          ++ toString (first + 3)
          ++ "\t.\t-\t0\tinference=ab initio prediction:Balrog;product=hypothetical protein" := by
  have h1 : wrapInt32 (first + 1) = first + 1 := wrapInt32_of_range _ (by omega) (by omega)
  have h2 : wrapInt32 (second + 3) = second + 3 := wrapInt32_of_range _ (by omega) (by omega)
  have h3 : wrapInt32 (second + 1) = second + 1 := wrapInt32_of_range _ (by omega) (by omega)
  have h4 : wrapInt32 (first + 3) = first + 3 := wrapInt32_of_range _ (by omega) (by omega)
  refine ⟨?_, ?_, ?_, ?_⟩
  · simp [cdsCoords, h1, h2]
  · simp [cdsCoords, h3, h4]
  · apply String.ext
    simp [cdsLine, cdsCoords, h1, h2, String.data_append]
  · apply String.ext
    simp [cdsLine, cdsCoords, h3, h4, String.data_append]

/-- Witness of C1: a gene at (0, 297) on contig chr1. -/
theorem cds_start_end_witness :
    cdsCoords true (0, 297) = (0 + 1, 297 + 3)
    ∧ cdsCoords false (0, 297) = (297 + 1, 0 + 3)
    ∧ cdsLine "chr1" (0, 297) true
        = "chr1" ++ "\tbalrog\tCDS\t" ++ toString ((0 : Int) + 1) ++ "\t"
          ++ toString ((297 : Int) + 3)
          ++ "\t.\t+\t0\tinference=ab initio prediction:Balrog;product=hypothetical protein"
    ∧ cdsLine "chr1" (0, 297) false
        = "chr1" ++ "\tbalrog\tCDS\t" ++ toString ((297 : Int) + 1) ++ "\t"
          ++ toString ((0 : Int) + 3)
          ++ "\t.\t-\t0\tinference=ab initio prediction:Balrog;product=hypothetical protein" :=
  cds_start_end "chr1" 0 297 (by decide) (by decide)

/-- C3 as stated fails: with the FASTA header `>chr<TAB>1 sample` the single CDS
line written has ten tab-separated columns, the first of which is not the seqid. -/
theorem cds_nine_columns_counterexample :
    (main tabWorld (defaultOptions "in.fa" "out.gff")).outLines.drop 2
      = [cdsLine (contigName ">chr\t1 sample") (0, 3) true]
    ∧ columns (cdsLine (contigName ">chr\t1 sample") (0, 3) true)
      = ["chr", "1", "balrog", "CDS", "1", "6", ".", "+", "0",
         "inference=ab initio prediction:Balrog;product=hypothetical protein"]
    ∧ (columns (cdsLine (contigName ">chr\t1 sample") (0, 3) true)).length ≠ 9 := by
  decide

/-- C3, amended: a CDS line is the seqid, `balrog`, `CDS`, the start, the end,
`.`, the strand (`+` exactly when the flag is true, otherwise `-`), `0` and the
attribute text, joined by single tabs; when the seqid holds no tab character
these are exactly its nine tab-separated columns. -/
theorem cds_nine_columns (contigname : String) (coord : Int × Int) (strand : Bool) :
    cdsLine contigname coord strand
      = contigname ++ "\t" ++ "balrog" ++ "\t" ++ "CDS" ++ "\t"
        ++ toString (cdsCoords strand coord).1 ++ "\t"
        ++ toString (cdsCoords strand coord).2 ++ "\t" ++ "." ++ "\t"
        ++ (if strand then "+" else "-") ++ "\t" ++ "0" ++ "\t"
        ++ "inference=ab initio prediction:Balrog;product=hypothetical protein"
    ∧ ('\t' ∉ contigname.data →
        columns (cdsLine contigname coord strand)
          = [contigname, "balrog", "CDS", toString (cdsCoords strand coord).1,
             toString (cdsCoords strand coord).2, ".", if strand then "+" else "-", "0",
             "inference=ab initio prediction:Balrog;product=hypothetical protein"]) := by
  have hx := int_toString_no_tab (cdsCoords strand coord).1
  have hy := int_toString_no_tab (cdsCoords strand coord).2
  constructor
  · apply String.ext
    cases strand <;> simp [cdsLine, String.data_append]
  · intro h
    cases strand <;>
      simp [columns, cdsLine, String.data_append, splitTabs_append_tab, h, hx, hy, splitTabs]

/-- Witness of C3: the forward gene (0, 297) on contig chr1. -/
theorem cds_nine_columns_witness :
    '\t' ∉ ("chr1" : String).data
    ∧ columns (cdsLine "chr1" (0, 297) true)
      = ["chr1", "balrog", "CDS", toString (cdsCoords true (0, 297)).1,
         toString (cdsCoords true (0, 297)).2, ".", if true then "+" else "-", "0",
         "inference=ab initio prediction:Balrog;product=hypothetical protein"] :=
  ⟨by decide, (cds_nine_columns "chr1" (0, 297) true).2 (by decide)⟩

/-- C2: for every list of contigs, each a name, a sequence and the genes returned
for it (coordinate pair and strand flag), the lines written are exactly
`##gff-version 3`, then one `##sequence-region <name> 1 <length>` line per
contig in input order with the length of that contig's sequence, then one CDS
line per gene, contig by contig in input order and in the order returned within
a contig; their number is 1 + the number of contigs + the number of genes. -/
theorem gff_layout (data : List ((String × String) × List ((Int × Int) × Bool))) :
    writeGff (data.map (fun d => d.1.1)) (data.map (fun d => d.1.2))
        (data.map (fun d => d.2.map Prod.fst)) (data.map (fun d => d.2.map Prod.snd))
      = some ("##gff-version 3"
          :: (data.map (fun d =>
                "##sequence-region " ++ contigName d.1.1 ++ " 1 " ++ toString d.1.2.length)
              ++ data.flatMap (fun d => d.2.map (fun g => cdsLine (contigName d.1.1) g.1 g.2))))
    ∧ ("##gff-version 3"
          :: (data.map (fun d =>
                "##sequence-region " ++ contigName d.1.1 ++ " 1 " ++ toString d.1.2.length)
              ++ data.flatMap
                  (fun d => d.2.map (fun g => cdsLine (contigName d.1.1) g.1 g.2)))).length
        = 1 + data.length + (data.map (fun d => d.2.length)).sum := by
  constructor
  · have hr : forLoop (regionBody (data.map (fun d => d.1.2))) 0 (data.map (fun d => d.1.1))
        = some (data.map (fun d =>
            "##sequence-region " ++ contigName d.1.1 ++ " 1 " ++ toString d.1.2.length)) := by
      have h := forLoop_map_eq (regionBody (data.map (fun d => d.1.2))) (fun d => d.1.1)
        (fun d => ["##sequence-region " ++ contigName d.1.1 ++ " 1 " ++ toString d.1.2.length])
        data 0 (by
          intro i y hy
          simp [regionBody, List.getElem?_map, hy, regionLine_text])
      rwa [flatMap_singleton_eq_map] at h
    have hc : forLoop (cdsBody (data.map (fun d => d.2.map Prod.fst))
          (data.map (fun d => d.2.map Prod.snd))) 0 (data.map (fun d => d.1.1))
        = some (data.flatMap
            (fun d => d.2.map (fun g => cdsLine (contigName d.1.1) g.1 g.2))) := by
      apply forLoop_map_eq
      intro i y hy
      simp [cdsBody, List.getElem?_map, hy, geneLoop_pairs]
    simp [writeGff, hr, hc]
  · simp [List.length_flatMap, Function.comp_def]
    omega

/-- C9: for every FASTA header the seqid is the part of the header before its
first space (the whole header when it has none) with every `>` removed, so it
holds no space and no `>`; and every line written is `##gff-version 3`, or the
`##sequence-region` line of a contig `j` carrying the seqid of header `j`, or a
CDS line of a gene of contig `j` carrying that same seqid. -/
theorem seqid_of_header :
    (∀ header : String,
      contigName header = seqidSpec header
      ∧ ' ' ∉ (contigName header).data ∧ '>' ∉ (contigName header).data)
    ∧ (∀ (names seqs : List String) (cv : List (List (Int × Int))) (sv : List (List Bool))
        (lines : List String), writeGff names seqs cv sv = some lines → ∀ l ∈ lines,
          l = "##gff-version 3"
          ∨ (∃ (j : Nat) (header seq : String), names[j]? = some header ∧ seqs[j]? = some seq
              ∧ l = "##sequence-region " ++ seqidSpec header ++ " 1 " ++ toString seq.length)
          ∨ (∃ (j : Nat) (header : String) (coords : List (Int × Int)) (strands : List Bool)
              (k : Nat) (coord : Int × Int) (strand : Bool), names[j]? = some header
              ∧ cv[j]? = some coords ∧ sv[j]? = some strands
              ∧ coords[k]? = some coord ∧ strands[k]? = some strand
              ∧ l = cdsLine (seqidSpec header) coord strand)) := by
  have hname : ∀ header : String, contigName header = seqidSpec header := by
    intro header
    apply String.ext
    simp [contigName, seqidSpec, eraseRemove, substr0_strFind]
  refine ⟨fun header => ⟨hname header, ?_, ?_⟩, ?_⟩
  · rw [hname]
    intro hmem
    have h1 := List.mem_takeWhile_imp (List.mem_filter.mp hmem).1
    simp at h1
  · rw [hname]
    intro hmem
    have h2 := (List.mem_filter.mp hmem).2
    simp at h2
  · intro names seqs cv sv lines hw l hl
    unfold writeGff at hw
    cases hr : forLoop (regionBody seqs) 0 names with
    | none => simp [hr] at hw
    | some regions =>
      cases hc : forLoop (cdsBody cv sv) 0 names with
      | none => simp [hr, hc] at hw
      | some cds =>
        simp [hr, hc] at hw
        subst hw
        rcases List.mem_cons.mp hl with h0 | hl2
        · exact Or.inl h0
        · rcases List.mem_append.mp hl2 with h1 | h2
          · obtain ⟨j, header, ls, hj, hb, hmem⟩ := forLoop_mem _ names 0 regions hr l h1
            obtain ⟨seq, hseq, hline⟩ := regionBody_line _ _ _ _ _ hb hmem
            refine Or.inr (Or.inl ⟨j, header, seq, hj, by simpa using hseq, ?_⟩)
            rw [hline, regionLine_text, hname]
          · obtain ⟨j, header, ls, hj, hb, hmem⟩ := forLoop_mem _ names 0 cds hc l h2
            obtain ⟨coords, strands, k, coord, strand, h3, h4, h5, h6, hline⟩ :=
              cdsBody_line _ _ _ _ _ _ hb hmem
            refine Or.inr (Or.inr ⟨j, header, coords, strands, k, coord, strand, hj,
              by simpa using h3, by simpa using h4, h5, h6, ?_⟩)
            rw [hline, hname]

/-- C4: when the translation table is neither 11 nor 4, or the input path or the
output path is not given, `main` returns (with status 0) having run no external
command, not read the FASTA input, not called `find_genes` and not opened or
written the output annotation. -/
theorem config_error_stops_early (w : World) (o : Options)
    (h : (o.table ≠ 11 ∧ o.table ≠ 4) ∨ o.inPath = none ∨ o.outPath = none) :
    (main w o).exit = Exit.returned 0
    ∧ ∀ e ∈ (main w o).trace, e.isSystem = false ∧ e.isReadFasta = false
        ∧ e.isFindGenes = false ∧ e.isOutput = false := by
  rcases main_cases w o with ⟨text, hm⟩ | ⟨in_path, out_path, _, hi, ho, ht, _⟩
  · rw [hm]
    refine ⟨rfl, fun e he => ?_⟩
    simp only [List.mem_singleton] at he
    subst he
    exact ⟨rfl, rfl, rfl, rfl⟩
  · rcases h with h | h | h
    · omega
    · rw [hi] at h; cases h
    · rw [ho] at h; cases h

/-- Witness of C4: translation table 1 with both paths given. -/
theorem config_error_stops_early_witness :
    ((({ defaultOptions "in.fa" "out.gff" with table := 1 } : Options).table ≠ 11
        ∧ ({ defaultOptions "in.fa" "out.gff" with table := 1 } : Options).table ≠ 4)
      ∨ ({ defaultOptions "in.fa" "out.gff" with table := 1 } : Options).inPath = none
      ∨ ({ defaultOptions "in.fa" "out.gff" with table := 1 } : Options).outPath = none)
    ∧ (main sampleWorld { defaultOptions "in.fa" "out.gff" with table := 1 }).exit
        = Exit.returned 0
    ∧ ∀ e ∈ (main sampleWorld { defaultOptions "in.fa" "out.gff" with table := 1 }).trace,
        e.isSystem = false ∧ e.isReadFasta = false
        ∧ e.isFindGenes = false ∧ e.isOutput = false :=
  ⟨by decide,
   config_error_stops_early sampleWorld { defaultOptions "in.fa" "out.gff" with table := 1 }
     (by decide)⟩

/-- C7: a `mmseqs createdb` or `mmseqs createindex` command that was run and gave
a nonzero status makes `main` return -1 with the FASTA input not read,
`find_genes` not called and the output annotation not touched; this is what
happens when the command line is valid, the cache was cleared without error,
mmseqs is true, the index must be built (the index file cannot be opened, or
clear-cache is set) and one of the two commands fails; and with mmseqs false
neither command is run. -/
theorem index_build_failure_is_fatal (w : World) (o : Options) :
    (∀ cmd st, cmd = createdbCommand w o ∨ cmd = createindexCommand o →
      Event.system cmd st ∈ (main w o).trace → st ≠ 0 →
        (main w o).exit = Exit.returned (-1)
        ∧ ∀ e ∈ (main w o).trace,
            e.isReadFasta = false ∧ e.isFindGenes = false ∧ e.isOutput = false)
    ∧ (∀ in_path out_path, o.help = false → o.inPath = some in_path →
        o.outPath = some out_path → (o.table = 11 ∨ o.table = 4) →
        (clearCachePhase w o).2 = none → o.mmseqs = true →
        (w.infileGood (refIndexPath o) = false ∨ o.clearCache = true) →
        (w.system (createdbCommand w o) ≠ 0 ∨ w.system (createindexCommand o) ≠ 0) →
          Event.system (createdbCommand w o) (w.system (createdbCommand w o))
              ∈ (main w o).trace
          ∧ (main w o).exit = Exit.returned (-1)
          ∧ ∀ e ∈ (main w o).trace,
              e.isReadFasta = false ∧ e.isFindGenes = false ∧ e.isOutput = false)
    ∧ (o.mmseqs = false → ∀ st,
        Event.system (createdbCommand w o) st ∉ (main w o).trace
        ∧ Event.system (createindexCommand o) st ∉ (main w o).trace) := by
  refine ⟨?_, ?_, ?_⟩
  · intro cmd st _ hmem hst
    obtain ⟨h1, h2⟩ := nonzero_status_fatal w o cmd st hmem hst
    exact ⟨h1, fun e he => (isQuiet_iff e).mp (h2 e he)⟩
  · intro in_path out_path hh hi ho ht hc hm hb hfail
    have hdb : ∃ st, st ≠ 0
        ∧ ∃ cmd, (cmd = createdbCommand w o ∨ cmd = createindexCommand o)
        ∧ Event.system cmd st ∈ (buildIndex w o).1
        ∧ Event.system (createdbCommand w o) (w.system (createdbCommand w o))
            ∈ (buildIndex w o).1 := by
      rcases buildIndex_cases w o with ⟨h1, h⟩ | ⟨h1, h2, h⟩ | ⟨h1, h2, h⟩
      · exact ⟨_, h1, _, Or.inl rfl, by rw [h]; simp, by rw [h]; simp⟩
      · exact ⟨_, h2, _, Or.inr rfl, by rw [h]; simp, by rw [h, h1]; simp⟩
      · rcases hfail with h3 | h3
        · exact absurd h1 h3
        · exact absurd h2 h3
    obtain ⟨st, hst, cmd, _, hmem, hrun⟩ := hdb
    have hphase : mmseqsPhase w o = (foundEvents o ++ (buildIndex w o).1, (buildIndex w o).2) := by
      rcases mmseqsPhase_cases w o with ⟨h, _⟩ | ⟨_, h⟩ | ⟨_, _, h⟩
      · rw [hm] at h; cases h
      · unfold mmseqsPhase at h ⊢
        have hcond : ¬ w.infileGood (refIndexPath o) = true ∨ o.clearCache = true := by
          rcases hb with hb | hb
          · exact Or.inl (by simp [hb])
          · exact Or.inr hb
        rw [if_pos hm, if_pos hcond]
      · exact h
    have hin : ∀ e, e ∈ (buildIndex w o).1 → e ∈ (main w o).trace := by
      intro e he
      rw [main_of_valid w o in_path out_path hh hi ho ht]
      rcases prepareAndRun_cases w o in_path out_path with
        ⟨h1, _⟩ | ⟨_, _, h⟩ | ⟨_, _, h⟩
      · rw [hc] at h1; cases h1
      · rw [h, hphase]; simp [he]
      · rw [h, hphase]; simp [he]
    obtain ⟨h1, h2⟩ := nonzero_status_fatal w o cmd st (hin _ hmem) hst
    exact ⟨hin _ hrun, h1, fun e he => (isQuiet_iff e).mp (h2 e he)⟩
  · intro hm st
    constructor
    · intro hmem
      exact (clearCommand_ne w o).1 (system_events_without_mmseqs w o hm _ st hmem).symm
    · intro hmem
      exact (clearCommand_ne w o).2 (system_events_without_mmseqs w o hm _ st hmem).symm

/-- Witness of C7: no cached index and a failing `mmseqs createdb`. -/
theorem index_build_failure_is_fatal_witness :
    Event.system (createdbCommand commandFailWorld (defaultOptions "in.fa" "out.gff")) 1
      ∈ (main commandFailWorld (defaultOptions "in.fa" "out.gff")).trace
    ∧ (1 : Int) ≠ 0
    ∧ (main commandFailWorld (defaultOptions "in.fa" "out.gff")).exit = Exit.returned (-1)
    ∧ ∀ e ∈ (main commandFailWorld (defaultOptions "in.fa" "out.gff")).trace,
        e.isReadFasta = false ∧ e.isFindGenes = false ∧ e.isOutput = false :=
  ⟨by decide, by decide,
   (index_build_failure_is_fatal commandFailWorld (defaultOptions "in.fa" "out.gff")).1
     (createdbCommand commandFailWorld (defaultOptions "in.fa" "out.gff")) 1
     (Or.inl rfl) (by decide) (by decide)⟩

/-- C5 as stated fails: with two contigs, a gene found on the first and a
`find_genes` call that does not return on the second, `main` ends at that call
and the annotation holds no line at all, the gene of the first contig included. -/
theorem completed_contigs_preserved_counterexample :
    (secondContigFails.find_genes 1
        (findGenesArgs (defaultOptions "in.fa" "out.gff") "ACGTACGT")).map
          (fun r => (r.gene_coord, r.gene_strand)) = some ([(0, 3)], [true])
    ∧ (secondContigFails.find_genes 2
        (findGenesArgs (defaultOptions "in.fa" "out.gff") "TTTTCCCC")).isNone = true
    ∧ (main secondContigFails (defaultOptions "in.fa" "out.gff")).exit = Exit.aborted
    ∧ (main secondContigFails (defaultOptions "in.fa" "out.gff")).outLines = []
    ∧ cdsLine (contigName ">chr1 first") (0, 3) true
        ∉ (main secondContigFails (defaultOptions "in.fa" "out.gff")).outLines
    ∧ Event.openOut "out.gff"
        ∉ (main secondContigFails (defaultOptions "in.fa" "out.gff")).trace := by
  decide

/-- C5, amended: when the `find_genes` call of some contig does not return, `main`
ends there, before the output annotation is opened: nothing is written to it,
so the genes found on the contigs before are not written either. -/
theorem failure_leaves_no_output (w : World) (o : Options) (in_path : String) (k : Nat)
    (seq : String) (hi : o.inPath = some in_path)
    (hk : (w.read_fasta in_path).1[k]? = some seq)
    (hf : w.find_genes (k + 1) (findGenesArgs o (upper seq)) = none) :
    (main w o).outLines = []
    ∧ (∀ e ∈ (main w o).trace, e.isOutput = false)
    ∧ ((main w o).exit = Exit.aborted
        ∨ ∀ e ∈ (main w o).trace, e.isReadFasta = false) := by
  have hquiet : (∀ e ∈ (main w o).trace, e.isOutput = false)
      ∧ ((main w o).exit = Exit.aborted
          ∨ ∀ e ∈ (main w o).trace, e.isReadFasta = false) := by
    rcases main_cases w o with ⟨text, h⟩ | ⟨ip, out_path, _, hip, _, _, h⟩
    · rw [h]
      constructor
      · intro e he
        simp only [List.mem_singleton] at he
        subst he
        rfl
      · refine Or.inr (fun e he => ?_)
        simp only [List.mem_singleton] at he
        subst he
        rfl
    · have hsame : ip = in_path := by
        rw [hi] at hip
        exact (Option.some.inj hip).symm
      subst hsame
      rw [h]
      have hfail : (predict w o ip).2 = none := by
        unfold predict
        apply contigLoop_fail w o _ _ 0 _ k (upper seq)
        · simp [seqVec, List.getElem?_map, hk]
        · simpa using hf
      have hrun : predictAndWrite w o ip out_path = ⟨Exit.aborted, predictEvents w o ip⟩ := by
        unfold predictAndWrite
        simp only [hfail]
      rcases prepareAndRun_cases w o ip out_path with ⟨h1, _⟩ | ⟨h1, h2, _⟩ | ⟨_, _, hr⟩
      · have hq := (prepare_failed_quiet w o ip out_path (Or.inl h1)).2
        exact ⟨fun e he => isOutput_of_quiet e (hq e he),
          Or.inr (fun e he => ((isQuiet_iff e).mp (hq e he)).1)⟩
      · have hq := (prepare_failed_quiet w o ip out_path (Or.inr ⟨h1, h2⟩)).2
        exact ⟨fun e he => isOutput_of_quiet e (hq e he),
          Or.inr (fun e he => ((isQuiet_iff e).mp (hq e he)).1)⟩
      · rw [hr, hrun]
        refine ⟨fun e he => ?_, Or.inl rfl⟩
        simp only [List.mem_append] at he
        rcases he with ((h3 | h4) | h5) | h6
        · exact isOutput_of_quiet e (verboseOut_quiet _ _ e h3).1
        · exact isOutput_of_quiet e ((clearCachePhase_ok w o).2.2 e h4)
        · exact isOutput_of_quiet e ((mmseqsPhase_ok w o).2.2 e h5)
        · exact (predictEvents_mem w o ip e h6).2
  exact ⟨outLines_of_quiet _ hquiet.1, hquiet.1, hquiet.2⟩

/-- Witness of C5: the second of two contigs fails. -/
theorem failure_leaves_no_output_witness :
    (defaultOptions "in.fa" "out.gff").inPath = some "in.fa"
    ∧ (secondContigFails.read_fasta "in.fa").1[1]? = some "ttttcccc"
    ∧ secondContigFails.find_genes (1 + 1)
        (findGenesArgs (defaultOptions "in.fa" "out.gff") (upper "ttttcccc")) = none
    ∧ (main secondContigFails (defaultOptions "in.fa" "out.gff")).outLines = []
    ∧ (∀ e ∈ (main secondContigFails (defaultOptions "in.fa" "out.gff")).trace,
        e.isOutput = false)
    ∧ ((main secondContigFails (defaultOptions "in.fa" "out.gff")).exit = Exit.aborted
        ∨ ∀ e ∈ (main secondContigFails (defaultOptions "in.fa" "out.gff")).trace,
            e.isReadFasta = false) :=
  ⟨rfl, rfl, rfl,
   failure_leaves_no_output secondContigFails (defaultOptions "in.fa" "out.gff") "in.fa" 1
     "ttttcccc" rfl rfl rfl⟩

/-- C6 on the code: the value of max-connections reaches no `find_genes` call and
has no effect on a run; the run with `--max-connections 1` equals the run with
the default 50, the arguments of its `find_genes` call included. -/
theorem max_connections_is_ignored :
    (∀ (w : World) (o : Options) (n : Int),
      main w { o with maxConnections := n } = main w o)
    ∧ (∀ (o : Options) (n : Int) (seq : String),
        findGenesArgs { o with maxConnections := n } seq = findGenesArgs o seq)
    ∧ main sampleWorld { defaultOptions "in.fa" "out.gff" with maxConnections := 1 }
        = main sampleWorld (defaultOptions "in.fa" "out.gff")
    ∧ (main sampleWorld
          { defaultOptions "in.fa" "out.gff" with maxConnections := 1 }).trace.filter
          Event.isFindGenes
        = [Event.findGenes 1
            { temp := "/tmp", seq := "ACGTACGT", table := 11, minLength := 90, maxOverlap := 60,
              verbose := true, geneBatchSize := 128, tisBatchSize := 1024, mmseqs := true }] := by
  have hmain : ∀ (w : World) (o : Options) (n : Int),
      main w { o with maxConnections := n } = main w o := by
    intro w o n
    have hp : ∀ in_path, predict w { o with maxConnections := n } in_path
        = predict w o in_path := by
      intro in_path
      unfold predict
      exact contigLoop_maxConnections w o n _ _ 0 _
    have hpe : ∀ in_path, predictEvents w { o with maxConnections := n } in_path
        = predictEvents w o in_path := by
      intro in_path
      unfold predictEvents
      rw [hp]
      rfl
    have hpw : ∀ in_path out_path,
        predictAndWrite w { o with maxConnections := n } in_path out_path
          = predictAndWrite w o in_path out_path := by
      intro in_path out_path
      unfold predictAndWrite
      rw [hp, hpe]
      rfl
    have hrun : ∀ in_path out_path,
        prepareAndRun w { o with maxConnections := n } in_path out_path
          = prepareAndRun w o in_path out_path := by
      intro in_path out_path
      unfold prepareAndRun
      rw [hpw]
      rfl
    unfold main
    simp only [hrun]
  exact ⟨hmain, fun _ _ _ => rfl, hmain _ _ _, by decide⟩

/-- C10: when the FASTA reader returns as many contig names as sequences and
every `find_genes` call that returns gives a strand list at least as long as its
coordinate list, no run of `main` reads a vector out of range: the result
vectors hold one entry per input sequence, in input order, and while writing
`seq_vec[j]`, `gene_coord_vec[j]`, `gene_strand_vec[j]`, `gene_coord_vec[j][k]`
and `gene_strand_vec[j][k]` are all in range. -/
theorem write_indices_in_range (w : World) (o : Options)
    (hnames : ∀ p, o.inPath = some p →
      (w.read_fasta p).2.length = (w.read_fasta p).1.length)
    (hstrand : ∀ call args r, w.find_genes call args = some r →
      r.gene_coord.length ≤ r.gene_strand.length) :
    (main w o).exit ≠ Exit.outOfRange
    ∧ ∀ in_path v, o.inPath = some in_path → (predict w o in_path).2 = some v →
        v.gene_coord_vec.length = (w.read_fasta in_path).1.length
        ∧ v.gene_strand_vec.length = (w.read_fasta in_path).1.length
        ∧ (∀ j seq, (w.read_fasta in_path).1[j]? = some seq →
            ∃ r, w.find_genes (j + 1) (findGenesArgs o (upper seq)) = some r
              ∧ v.gene_coord_vec[j]? = some r.gene_coord
              ∧ v.gene_strand_vec[j]? = some r.gene_strand)
        ∧ (∀ (j : Nat) (header : String), (w.read_fasta in_path).2[j]? = some header →
            ∃ (seq : String) (coords : List (Int × Int)) (strands : List Bool),
              (seqVec w in_path)[j]? = some seq
              ∧ v.gene_coord_vec[j]? = some coords ∧ v.gene_strand_vec[j]? = some strands
              ∧ ∀ k, k < coords.length → k < strands.length)
        ∧ (writeGff (w.read_fasta in_path).2 (seqVec w in_path)
            v.gene_coord_vec v.gene_strand_vec).isSome = true := by
  have hidx : ∀ in_path v, o.inPath = some in_path → (predict w o in_path).2 = some v →
      ∀ (j : Nat) (header : String), (w.read_fasta in_path).2[j]? = some header →
        ∃ (seq : String) (coords : List (Int × Int)) (strands : List Bool),
              (seqVec w in_path)[j]? = some seq
          ∧ v.gene_coord_vec[j]? = some coords ∧ v.gene_strand_vec[j]? = some strands
          ∧ coords.length ≤ strands.length := by
    intro in_path v hi hp j header hj
    obtain ⟨hj2, _⟩ := List.getElem?_eq_some.mp hj
    have hlt : j < (w.read_fasta in_path).1.length := by
      rw [← hnames in_path hi]; exact hj2
    obtain ⟨r, hr, hc, hs⟩ := (predict_some w o in_path v hp).2.2 j _
      (List.getElem?_eq_getElem hlt)
    exact ⟨upper ((w.read_fasta in_path).1[j]), r.gene_coord, r.gene_strand,
      by simp [seqVec, List.getElem?_map, List.getElem?_eq_getElem hlt], hc, hs,
      hstrand _ _ r hr⟩
  have hsecond : ∀ in_path v, o.inPath = some in_path → (predict w o in_path).2 = some v →
      (writeGff (w.read_fasta in_path).2 (seqVec w in_path)
        v.gene_coord_vec v.gene_strand_vec).isSome = true :=
    fun in_path v hi hp => writeGff_isSome _ _ _ _ (hidx in_path v hi hp)
  constructor
  · rcases main_cases w o with ⟨text, h⟩ | ⟨in_path, out_path, _, hi, _, _, h⟩
    · rw [h]; simp
    · rw [h]
      rcases prepareAndRun_cases w o in_path out_path with
        ⟨_, hr⟩ | ⟨_, _, hr⟩ | ⟨_, _, hr⟩
      · rw [hr]; simp
      · rw [hr]; simp
      · rw [hr]
        rcases predictAndWrite_cases w o in_path out_path with
          ⟨_, hp⟩ | ⟨v, hv, hw, _⟩ | ⟨v, ls, _, _, hp⟩
        · rw [hp]; simp
        · have := hsecond in_path v hi hv
          rw [hw] at this
          cases this
        · rw [hp]; simp
  · intro in_path v hi hp
    obtain ⟨h1, h2, h3⟩ := predict_some w o in_path v hp
    refine ⟨h1, h2, h3, ?_, hsecond in_path v hi hp⟩
    intro j header hj
    obtain ⟨seq, coords, strands, a, b, c, d⟩ := hidx in_path v hi hp j header hj
    exact ⟨seq, coords, strands, a, b, c, fun k hk => by omega⟩

/-- Witness of C10: one contig with one name and one forward gene. -/
theorem write_indices_in_range_witness :
    (main sampleWorld (defaultOptions "in.fa" "out.gff")).exit ≠ Exit.outOfRange
    ∧ ∀ in_path v, (defaultOptions "in.fa" "out.gff").inPath = some in_path →
        (predict sampleWorld (defaultOptions "in.fa" "out.gff") in_path).2 = some v →
        v.gene_coord_vec.length = (sampleWorld.read_fasta in_path).1.length
        ∧ v.gene_strand_vec.length = (sampleWorld.read_fasta in_path).1.length
        ∧ (∀ j seq, (sampleWorld.read_fasta in_path).1[j]? = some seq →
            ∃ r, sampleWorld.find_genes (j + 1)
                (findGenesArgs (defaultOptions "in.fa" "out.gff") (upper seq)) = some r
              ∧ v.gene_coord_vec[j]? = some r.gene_coord
              ∧ v.gene_strand_vec[j]? = some r.gene_strand)
        ∧ (∀ (j : Nat) (header : String),
            (sampleWorld.read_fasta in_path).2[j]? = some header →
            ∃ (seq : String) (coords : List (Int × Int)) (strands : List Bool),
              (seqVec sampleWorld in_path)[j]? = some seq
              ∧ v.gene_coord_vec[j]? = some coords ∧ v.gene_strand_vec[j]? = some strands
              ∧ ∀ k, k < coords.length → k < strands.length)
        ∧ (writeGff (sampleWorld.read_fasta in_path).2 (seqVec sampleWorld in_path)
            v.gene_coord_vec v.gene_strand_vec).isSome = true :=
  write_indices_in_range sampleWorld (defaultOptions "in.fa" "out.gff")
    (fun _ _ => rfl)
    (fun _ _ r h => by
      have hr : r = ⟨[(0, 3)], [true], ["ACGTAC"], ["T"], []⟩ := (Option.some.inj h).symm
      rw [hr]
      decide)

/-- C8: with `find_genes` as the specification describes it, a contig whose
input sequence is empty gets an empty gene set; its sequence-region line is
`##sequence-region <name> 1 0` and it gets no CDS line; and for an input made
only of such a contig the file is `##gff-version 3` followed by that line. -/
theorem empty_sequence_header_only (pipeline : Nat → FindGenesArgs → Option GeneResult)
    (w : World) (o : Options) (hspec : w.find_genes = find_genes_spec pipeline) :
    (∀ call args, args.seq = "" →
      ∃ r, w.find_genes call args = some r ∧ r.gene_coord = [] ∧ r.gene_strand = [])
    ∧ (∀ (in_path : String) (v : GeneVecs) (j : Nat), (predict w o in_path).2 = some v →
        (w.read_fasta in_path).1[j]? = some "" →
          v.gene_coord_vec[j]? = some [] ∧ v.gene_strand_vec[j]? = some [])
    ∧ (∀ (seqs : List String) (cv : List (List (Int × Int))) (sv : List (List Bool))
        (j : Nat) (header : String), seqs[j]? = some "" → cv[j]? = some [] →
          regionBody seqs j header
            = some ["##sequence-region " ++ contigName header ++ " 1 0"]
          ∧ cdsBody cv sv j header = some [])
    ∧ (∀ in_path out_path header, o.help = false → o.inPath = some in_path →
        o.outPath = some out_path → (o.table = 11 ∨ o.table = 4) →
        (clearCachePhase w o).2 = none → (mmseqsPhase w o).2 = none →
        w.read_fasta in_path = ([""], [header]) →
          (main w o).exit = Exit.returned 0
          ∧ (main w o).outLines
            = ["##gff-version 3", "##sequence-region " ++ contigName header ++ " 1 0"]) := by
  have hempty : ∀ call args, args.seq = "" →
      w.find_genes call args = some ⟨[], [], [], [], []⟩ := by
    intro call args ha
    rw [hspec]
    simp [find_genes_spec, ha]
  have hupper : upper "" = "" := by decide
  have hregion : ∀ header, regionLine (contigName header) ""
      = "##sequence-region " ++ contigName header ++ " 1 0" := by
    intro header
    have h0 : toString "".length = "0" := by decide
    rw [regionLine_text, h0]
    apply String.ext
    simp [String.data_append]
  refine ⟨?_, ?_, ?_, ?_⟩
  · intro call args ha
    exact ⟨_, hempty call args ha, rfl, rfl⟩
  · intro in_path v j hp hj
    obtain ⟨r, hr, hc, hs⟩ := (predict_some w o in_path v hp).2.2 j "" hj
    rw [hempty _ _ (by rw [hupper]; rfl)] at hr
    have hr2 := Option.some.inj hr
    subst hr2
    exact ⟨hc, hs⟩
  · intro seqs cv sv j header hs hc
    constructor
    · simp [regionBody, hs, hregion]
    · simp [cdsBody, hc, forLoop]
  · intro in_path out_path header hh hi ho ht hc hm hread
    have hseq : seqVec w in_path = [""] := by
      simp [seqVec, hread, hupper]
    have hp : (predict w o in_path).2 = some ⟨[[]], [[]], [[]], [[]], [[]]⟩ := by
      unfold predict
      rw [hseq]
      unfold contigLoop
      rw [hempty _ _ rfl]
      rfl
    apply main_writes w o in_path out_path _ _ hh hi ho ht hc hm hp
    rw [hseq, hread]
    simp [writeGff, forLoop, regionBody, cdsBody, hregion]

/-- Witness of C8: a FASTA file whose single contig is empty. -/
theorem empty_sequence_header_only_witness :
    (main emptyContigWorld (defaultOptions "in.fa" "out.gff")).exit = Exit.returned 0
    ∧ (main emptyContigWorld (defaultOptions "in.fa" "out.gff")).outLines
      = ["##gff-version 3", "##sequence-region " ++ contigName ">empty contig" ++ " 1 0"] :=
  (empty_sequence_header_only sampleWorld.find_genes emptyContigWorld
      (defaultOptions "in.fa" "out.gff") rfl).2.2.2
    "in.fa" "out.gff" ">empty contig" rfl rfl rfl (Or.inl rfl) (by decide) (by decide) rfl

/-- Witness of C9: the header `>chr1 sample` and the region line written for it. -/
theorem seqid_of_header_witness :
    (contigName ">chr1 sample" = seqidSpec ">chr1 sample"
      ∧ ' ' ∉ (contigName ">chr1 sample").data ∧ '>' ∉ (contigName ">chr1 sample").data)
    ∧ writeGff [">chr1 sample"] ["ACGTACGT"] [[(0, 3)]] [[true]]
        = some ["##gff-version 3", "##sequence-region chr1 1 8",
            cdsLine "chr1" (0, 3) true]
    ∧ ("##sequence-region chr1 1 8" = "##gff-version 3"
        ∨ (∃ (j : Nat) (header seq : String),
            [">chr1 sample"][j]? = some header ∧ ["ACGTACGT"][j]? = some seq
            ∧ "##sequence-region chr1 1 8"
              = "##sequence-region " ++ seqidSpec header ++ " 1 " ++ toString seq.length)
        ∨ (∃ (j : Nat) (header : String) (coords : List (Int × Int)) (strands : List Bool)
            (k : Nat) (coord : Int × Int) (strand : Bool),
            [">chr1 sample"][j]? = some header
            ∧ [[((0 : Int), (3 : Int))]][j]? = some coords ∧ [[true]][j]? = some strands
            ∧ coords[k]? = some coord ∧ strands[k]? = some strand
            ∧ "##sequence-region chr1 1 8" = cdsLine (seqidSpec header) coord strand)) :=
  ⟨seqid_of_header.1 ">chr1 sample", by decide,
   seqid_of_header.2 [">chr1 sample"] ["ACGTACGT"] [[(0, 3)]] [[true]]
     ["##gff-version 3", "##sequence-region chr1 1 8", cdsLine "chr1" (0, 3) true]
     (by decide) "##sequence-region chr1 1 8" (by decide)⟩

end Balrog
